import Mathlib

/-!
# Verification of the radar deal-ingestion core (`radar/runner.py`)

This file gives a shallow embedding, in Lean 4, of the URL normalizer, the
identity resolver, the dedup/upsert engine, the DB-side reactivation fallback
and the health checker of `radar/runner.py`, together with theorems settling
the frozen claims about them.

Conventions of the embedding:

* Python strings are Lean `String`s; most work happens on `List Char`
  (`String.data`), with structural recursion so that every definition reduces
  inside the kernel.
* Python's `str.strip`, `str.lower`, `str.isspace` and the regex class `\s`
  are modelled on the Unicode code-point level.  `str.lower` is modelled as
  ASCII lowercasing (no claim exercises non-ASCII case mapping).
* The parts of `urllib.parse` that `normalize_url` calls (`urlparse`,
  `urlunparse`, `parse_qs`, `urlencode`, `quote_plus`, `unquote`) are
  modelled after CPython 3.11 (`Lib/urllib/parse.py`), the interpreter the
  repository targets.  Bracketed (IPv6) hosts are modelled as parse failures:
  CPython accepts only syntactically valid IPv6/IPvFuture literals there and
  rejects the rest with `ValueError`; no claim exercises a bracketed host.
  The NFKC netloc check of `_checknetloc`, which can only reject certain
  non-ASCII netlocs, is likewise not modelled.
* A raised-and-not-caught Python exception is an `Except.error`.
-/

set_option maxRecDepth 40000

deriving instance DecidableEq for Except

namespace Radar

/-! ## Python string primitives -/

/-- Code points for which Python's `str.isspace` (and the regex class `\s`)
holds; this is also the character set removed by `str.strip()`. -/
def isSpaceChar (c : Char) : Bool :=
  let n := c.toNat
  decide ((9 ≤ n ∧ n ≤ 13) ∨ (28 ≤ n ∧ n ≤ 32) ∨ n = 0x85 ∨ n = 0xA0 ∨
    n = 0x1680 ∨ (0x2000 ≤ n ∧ n ≤ 0x200A) ∨ n = 0x2028 ∨ n = 0x2029 ∨
    n = 0x202F ∨ n = 0x205F ∨ n = 0x3000)

/-- Model of `str.lstrip()` on a character list. -/
def lstripL (l : List Char) : List Char := l.dropWhile isSpaceChar

/-- Model of `str.strip()` on a character list. -/
def stripL (l : List Char) : List Char :=
  ((lstripL l).reverse.dropWhile isSpaceChar).reverse

/-- Model of `str.strip()`. -/
def pyStrip (s : String) : String := ⟨stripL s.data⟩

def isAsciiUpper (c : Char) : Bool := decide ('A' ≤ c ∧ c ≤ 'Z')

def isAsciiLower (c : Char) : Bool := decide ('a' ≤ c ∧ c ≤ 'z')

def isAsciiAlpha (c : Char) : Bool := isAsciiUpper c || isAsciiLower c

def isAsciiDigit (c : Char) : Bool := decide ('0' ≤ c ∧ c ≤ '9')

/-- Model of `str.lower()`, modelled as ASCII lowercasing. -/
def lowerChar (c : Char) : Char :=
  if isAsciiUpper c then Char.ofNat (c.toNat + 32) else c

def lowerL (l : List Char) : List Char := l.map lowerChar

/-- Model of `str.lower()`. -/
def pyLower (s : String) : String := ⟨lowerL s.data⟩

/-- Whether `pat` is a leading segment of `l` (`str.startswith`). -/
def leadsWith : List Char → List Char → Bool
  | [], _ => true
  | _ :: _, [] => false
  | p :: ps, x :: xs => p == x && leadsWith ps xs

/-- Model of `str.startswith`. -/
def pyStartsWith (s pat : String) : Bool := leadsWith pat.data s.data

/-- Model of `str.endswith` for a single character. -/
def endsWithChar (l : List Char) (c : Char) : Bool :=
  match l.reverse with
  | [] => false
  | x :: _ => x == c

/-- Split at the first occurrence of `c` (`str.split(c, 1)`); `none` when `c`
does not occur. -/
def splitFirst (c : Char) : List Char → Option (List Char × List Char)
  | [] => none
  | x :: xs =>
    if x == c then some ([], xs)
    else
      match splitFirst c xs with
      | none => none
      | some (a, b) => some (x :: a, b)

/-- Model of `str.split(c)`: split at every occurrence of `c`.  On the empty string
this yields `[[]]`, like Python's `"".split(c) == ['']`. -/
def splitAll (c : Char) : List Char → List (List Char)
  | [] => [[]]
  | x :: xs =>
    if x == c then [] :: splitAll c xs
    else
      match splitAll c xs with
      | [] => [[x]]
      | a :: r => (x :: a) :: r

/-- Position of the first occurrence of `c` at or after `start`
(`str.find(c, start)`), if any. -/
def findFrom (c : Char) (start : Nat) (l : List Char) : Option Nat :=
  ((l.drop start).findIdx? (· == c)).map (· + start)

/-- Position of the last occurrence of `c` (`str.rfind(c)`), if any. -/
def rfindChar (c : Char) (l : List Char) : Option Nat :=
  (l.reverse.findIdx? (· == c)).map (fun i => l.length - 1 - i)

/-- Lexicographic code-point order on character lists (Python `str` `<`). -/
def strLtL : List Char → List Char → Bool
  | [], [] => false
  | [], _ :: _ => true
  | _ :: _, [] => false
  | a :: as, b :: bs =>
    if a.toNat < b.toNat then true
    else if b.toNat < a.toNat then false
    else strLtL as bs

def pyStrLt (a b : String) : Bool := strLtL a.data b.data

/-! ## Percent-encoding (`urllib.parse.quote_plus` / `unquote`)

`quote` UTF-8-encodes the string and percent-escapes every byte outside the
always-safe set; `quote_plus` additionally renders the space byte as `+`.
`unquote` splits the string into maximal ASCII / non-ASCII runs, `%`-decodes
the ASCII runs at the byte level and UTF-8-decodes them with
`errors='replace'`, and passes non-ASCII runs through unchanged. -/

/-- UTF-8 encoding of one character. -/
def utf8Char (c : Char) : List Nat :=
  let n := c.toNat
  if n < 0x80 then [n]
  else if n < 0x800 then [0xC0 + n / 0x40, 0x80 + n % 0x40]
  else if n < 0x10000 then
    [0xE0 + n / 0x1000, 0x80 + (n / 0x40) % 0x40, 0x80 + n % 0x40]
  else
    [0xF0 + n / 0x40000, 0x80 + (n / 0x1000) % 0x40,
     0x80 + (n / 0x40) % 0x40, 0x80 + n % 0x40]

/-- UTF-8 encoding of a character list (`str.encode()`). -/
def utf8Bytes (l : List Char) : List Nat := (l.map utf8Char).flatten

def hexVal (c : Char) : Option Nat :=
  if isAsciiDigit c then some (c.toNat - '0'.toNat)
  else if decide ('a' ≤ c ∧ c ≤ 'f') then some (c.toNat - 'a'.toNat + 10)
  else if decide ('A' ≤ c ∧ c ≤ 'F') then some (c.toNat - 'A'.toNat + 10)
  else none

def hexUpper (n : Nat) : Char :=
  if n < 10 then Char.ofNat ('0'.toNat + n) else Char.ofNat ('A'.toNat + n - 10)

/-- The bytes `quote` never escapes: ASCII alphanumerics and `_.-~`. -/
def isAlwaysSafe (b : Nat) : Bool :=
  decide ((65 ≤ b ∧ b ≤ 90) ∨ (97 ≤ b ∧ b ≤ 122) ∨ (48 ≤ b ∧ b ≤ 57) ∨
    b = 95 ∨ b = 46 ∨ b = 45 ∨ b = 126)

/-- Model of `quote_plus(s, safe='')` byte by byte. -/
def quotePlusBytes (bs : List Nat) : List Char :=
  bs.flatMap fun b =>
    if isAlwaysSafe b then [Char.ofNat b]
    else if b == 32 then ['+']
    else ['%', hexUpper (b / 16), hexUpper (b % 16)]

def quotePlusL (l : List Char) : List Char := quotePlusBytes (utf8Bytes l)

/-- Tokens of a partially `%`-decoded string: decoded bytes from the ASCII
runs, and non-ASCII characters passed through verbatim. -/
inductive QTok where
  | byte (b : Nat)
  | ch (c : Char)
deriving DecidableEq

/-- Model of `%`-decode (`unquote_to_bytes`): a `%` followed by two hex digits becomes
a byte; otherwise `%` stays literal.  ASCII characters become bytes, and
non-ASCII characters become pass-through tokens (run boundaries). -/
def pctToks : List Char → List QTok
  | [] => []
  | '%' :: a :: b :: rest =>
    match hexVal a, hexVal b with
    | some x, some y => .byte (16 * x + y) :: pctToks rest
    | _, _ => .byte 37 :: pctToks (a :: b :: rest)
  | c :: rest =>
    (if c.toNat ≤ 0x7F then QTok.byte c.toNat else QTok.ch c) :: pctToks rest

def replChar : Char := Char.ofNat 0xFFFD

/-- State of the incremental UTF-8 decoder: valid range for the next
continuation byte, accumulated scalar value, and how many continuation bytes
remain after the next one. -/
structure U8Pend where
  lo : Nat
  hi : Nat
  val : Nat
  more : Nat
deriving DecidableEq

/-- Start decoding at a token with no pending multi-byte sequence.  Returns
the emitted characters and the new pending state.  (A byte that cannot start
a sequence yields a replacement character, as `errors='replace'` does for a
maximal ill-formed subpart.) -/
def u8start : QTok → List Char × Option U8Pend
  | .ch c => ([c], none)
  | .byte b =>
    if b ≤ 0x7F then ([Char.ofNat b], none)
    else if decide (0xC2 ≤ b ∧ b ≤ 0xDF) then ([], some ⟨0x80, 0xBF, b - 0xC0, 0⟩)
    else if b == 0xE0 then ([], some ⟨0xA0, 0xBF, 0, 1⟩)
    else if b == 0xED then ([], some ⟨0x80, 0x9F, 0xD, 1⟩)
    else if decide (0xE0 ≤ b ∧ b ≤ 0xEF) then ([], some ⟨0x80, 0xBF, b - 0xE0, 1⟩)
    else if b == 0xF0 then ([], some ⟨0x90, 0xBF, 0, 2⟩)
    else if b == 0xF4 then ([], some ⟨0x80, 0x8F, 4, 2⟩)
    else if decide (0xF0 ≤ b ∧ b ≤ 0xF4) then ([], some ⟨0x80, 0xBF, b - 0xF0, 2⟩)
    else ([replChar], none)

/-- Feed one token to a decoder with a pending sequence. -/
def u8step (p : U8Pend) (t : QTok) : List Char × Option U8Pend :=
  match t with
  | .byte b =>
    if decide (p.lo ≤ b ∧ b ≤ p.hi) then
      let val := p.val * 0x40 + (b - 0x80)
      if p.more = 0 then ([Char.ofNat val], none)
      else ([], some ⟨0x80, 0xBF, val, p.more - 1⟩)
    else
      let s := u8start t
      (replChar :: s.1, s.2)
  | .ch c => ([replChar, c], none)

/-- UTF-8 decoding with `errors='replace'` over a token stream: decoded byte
runs become characters, pass-through characters are emitted as-is (cutting off
a pending sequence yields a replacement character first). -/
def u8run : Option U8Pend → List QTok → List Char
  | none, [] => []
  | some _, [] => [replChar]
  | none, t :: rest =>
    match u8start t with
    | (cs, st) => cs ++ u8run st rest
  | some p, t :: rest =>
    match u8step p t with
    | (cs, st) => cs ++ u8run st rest

/-- Model of `unquote` with UTF-8 / `errors='replace'`. -/
def unquoteL (l : List Char) : List Char := u8run none (pctToks l)

/-- Model of `unquote_plus`: `+` becomes a space, then `unquote`. -/
def unquotePlusL (l : List Char) : List Char :=
  unquoteL (l.map fun c => if c == '+' then ' ' else c)

/-! ## `urlsplit` / `urlparse` / `urlunparse` (CPython 3.11) -/

def schemeChar (c : Char) : Bool :=
  isAsciiAlpha c || isAsciiDigit c || c == '+' || c == '-' || c == '.'

/-- Model of `_WHATWG_C0_CONTROL_OR_SPACE`: code points `0x00`–`0x20`. -/
def isC0OrSpace (c : Char) : Bool := decide (c.toNat ≤ 0x20)

def usesNetloc : List String :=
  ["", "ftp", "http", "gopher", "nntp", "telnet", "imap", "wais", "file",
   "mms", "https", "shttp", "snews", "prospero", "rtsp", "rtsps", "rtspu",
   "rsync", "svn", "svn+ssh", "sftp", "nfs", "git", "git+ssh", "ws", "wss"]

def usesParams : List String :=
  ["", "ftp", "hdl", "prospero", "http", "imap", "https", "shttp", "rtsp",
   "rtsps", "rtspu", "sip", "sips", "mms", "sftp", "tel"]

structure SplitParts where
  scheme : List Char
  netloc : List Char
  path : List Char
  query : List Char
  fragment : List Char
deriving DecidableEq

/-- Model of `urlsplit(url)` (default `scheme=''`, `allow_fragments=True`).  Raises —
returns `Except.error` — on bracketed (IPv6) netlocs; CPython additionally
validates those as IPv6/IPvFuture literals and raises `ValueError` otherwise,
a case no claim exercises, so all bracketed netlocs are modelled as errors. -/
def urlsplitE (url0 : List Char) : Except Unit SplitParts := do
  let url1 := url0.dropWhile isC0OrSpace
  let url2 := url1.filter fun c => !(c == '\t' || c == '\r' || c == '\n')
  let (scheme, url3) :=
    match splitFirst ':' url2 with
    | none => ([], url2)
    | some (pre, post) =>
      if pre ≠ [] && (match pre.head? with
          | some c0 => c0.toNat ≤ 0x7F && isAsciiAlpha c0
          | none => false) && pre.all schemeChar then
        (lowerL pre, post)
      else ([], url2)
  let (netloc, url4) :=
    if leadsWith "//".data url3 then
      let rest := url3.drop 2
      (rest.takeWhile (fun c => !(c == '/' || c == '?' || c == '#')),
       rest.dropWhile (fun c => !(c == '/' || c == '?' || c == '#')))
    else ([], url3)
  if netloc.contains '[' || netloc.contains ']' then Except.error () else
  let (url5, fragment) :=
    match splitFirst '#' url4 with
    | some (a, b) => (a, b)
    | none => (url4, [])
  let (path, query) :=
    match splitFirst '?' url5 with
    | some (a, b) => (a, b)
    | none => (url5, [])
  pure ⟨scheme, netloc, path, query, fragment⟩

/-- Model of `_splitparams`: split the parameters off the last path segment. -/
def splitParams (url : List Char) : List Char × List Char :=
  let iOpt :=
    if url.contains '/' then
      match rfindChar '/' url with
      | some r => findFrom ';' r url
      | none => findFrom ';' 0 url
    else findFrom ';' 0 url
  match iOpt with
  | none => (url, [])
  | some i => (url.take i, url.drop (i + 1))

structure ParseParts where
  scheme : List Char
  netloc : List Char
  path : List Char
  params : List Char
  query : List Char
  fragment : List Char
deriving DecidableEq

/-- Model of `urlparse(url)`. -/
def urlparseE (url : List Char) : Except Unit ParseParts := do
  let s ← urlsplitE url
  let (path, params) :=
    if usesParams.contains ⟨s.scheme⟩ && s.path.contains ';' then
      splitParams s.path
    else (s.path, [])
  pure ⟨s.scheme, s.netloc, path, params, s.query, s.fragment⟩

/-- Model of `urlunsplit`. -/
def urlunsplitL (scheme netloc url query fragment : List Char) : List Char :=
  let url :=
    if netloc ≠ [] ∨ (scheme ≠ [] ∧ usesNetloc.contains ⟨scheme⟩ ∧
        ¬ leadsWith "//".data url) then
      let url := if url ≠ [] ∧ ¬ leadsWith "/".data url then '/' :: url else url
      '/' :: '/' :: (netloc ++ url)
    else url
  let url := if scheme ≠ [] then scheme ++ ':' :: url else url
  let url := if query ≠ [] then url ++ '?' :: query else url
  if fragment ≠ [] then url ++ '#' :: fragment else url

/-- Model of `urlunparse`. -/
def urlunparseL (scheme netloc path params query fragment : List Char) :
    List Char :=
  let url := if params ≠ [] then path ++ ';' :: params else path
  urlunsplitL scheme netloc url query fragment

/-! ## `parse_qs` / `urlencode` -/

/-- Model of `parse_qsl(qs, keep_blank_values=False, separator='&')`: fields without
`=` or with an empty value are dropped; names and values are
`unquote_plus`-decoded. -/
def parseQsl (q : List Char) : List (String × String) :=
  (splitAll '&' q).filterMap fun nv =>
    if nv = [] then none
    else
      match splitFirst '=' nv with
      | none => none
      | some (n, v) =>
        if v = [] then none
        else some (⟨unquotePlusL n⟩, ⟨unquotePlusL v⟩)

/-- Insert one parsed pair into the accumulated dict (first-occurrence key
order, values appended). -/
def addQsPair (acc : List (String × List String)) (n v : String) :
    List (String × List String) :=
  match acc with
  | [] => [(n, [v])]
  | (k, vs) :: rest =>
    if k == n then (k, vs ++ [v]) :: rest else (k, vs) :: addQsPair rest n v

/-- Model of `parse_qs(qs, keep_blank_values=False)` as an ordered association list. -/
def parseQs (q : List Char) : List (String × List String) :=
  (parseQsl q).foldl (fun acc p => addQsPair acc p.1 p.2) []

/-- Python tuple `<` on string pairs. -/
def pairLt (a b : String × String) : Bool :=
  pyStrLt a.1 b.1 || (a.1 == b.1 && pyStrLt a.2 b.2)

/-- Stable insertion into an ascending list — `sorted` is a stable ascending
sort, and insertion sort realises exactly that. -/
def insPair (x : String × String) : List (String × String) → List (String × String)
  | [] => [x]
  | y :: ys => if pairLt x y then x :: y :: ys else y :: insPair x ys

/-- Model of `sorted` on a list of string pairs. -/
def sortPairs : List (String × String) → List (String × String)
  | [] => []
  | x :: xs => insPair x (sortPairs xs)

/-- Model of `urlencode` with the default `quote_via=quote_plus`, `safe=''`. -/
def urlencodeL (ps : List (String × String)) : List Char :=
  List.intercalate "&".data
    (ps.map fun p => quotePlusL p.1.data ++ '=' :: quotePlusL p.2.data)

/-! ## `normalize_url` (runner.py lines 87–162) -/

/-- The fixed blocklist of tracking parameters. -/
def trackingParams : List String :=
  ["ref", "ref_src", "fbclid", "gclid", "igshid",
   "mc_cid", "mc_eid", "spm", "source", "mkt_tok"]

/-- The query filter of `normalize_url`: drop `utm_*`-named parameters
(case-sensitively) and blocklisted names (case-insensitively); keep the first
value of everything else. -/
def filterQuery (qd : List (String × List String)) : List (String × String) :=
  qd.filterMap fun kv =>
    if pyStartsWith kv.1 "utm_" then none
    else if (trackingParams.map pyLower).contains (pyLower kv.1) then none
    else some (kv.1, kv.2.headD "")

/-- Model of `normalize_url`: scheme forced to `https`, host lowercased and with one
leading `www.` stripped, one trailing path slash removed (except the root
path), tracking parameters dropped and the rest sorted and re-encoded, the
fragment discarded.  On a parse failure the (possibly scheme-prefixed)
stripped input is returned unchanged. -/
def normalize_url (s : String) : String :=
  if s = "" then ""
  else
    let u0 := stripL s.data
    if u0 = [] then ""
    else
      let u := if leadsWith "http://".data u0 || leadsWith "https://".data u0
        then u0 else "https://".data ++ u0
      match urlparseE u with
      | .error _ => ⟨stripL u⟩
      | .ok p =>
        let netloc0 := lowerL p.netloc
        let netloc := if leadsWith "www.".data netloc0 then netloc0.drop 4
          else netloc0
        let path := if p.path ≠ "/".data ∧ endsWithChar p.path '/' then
            p.path.dropLast else p.path
        let filtered := filterQuery (parseQs p.query)
        let query := if filtered ≠ [] then urlencodeL (sortPairs filtered)
          else []
        ⟨urlunparseL "https".data netloc path p.params query []⟩

/-! ## SHA-1 (for `compute_dedupe_key`) -/

def rotl32 (n x : Nat) : Nat :=
  ((x <<< n) ||| (x >>> (32 - n))) % 4294967296

/-- Big-endian byte expansion: `k` bytes of `n`. -/
def beBytes : Nat → Nat → List Nat
  | 0, _ => []
  | k + 1, n => beBytes k (n / 256) ++ [n % 256]

/-- SHA-1 message padding: `0x80`, zeros to 56 mod 64, 8-byte bit length. -/
def sha1Pad (msg : List Nat) : List Nat :=
  let k := (119 - msg.length % 64) % 64
  msg ++ [0x80] ++ List.replicate k 0 ++ beBytes 8 (msg.length * 8)

/-- Big-endian 32-bit words from bytes. -/
def toWords : List Nat → List Nat
  | b0 :: b1 :: b2 :: b3 :: rest => (((b0 * 256 + b1) * 256 + b2) * 256 + b3) :: toWords rest
  | _ => []

/-- Extend the 16 block words to 80 schedule words (`fuel` counts down). -/
def sha1Extend : Nat → List Nat → List Nat
  | 0, acc => acc
  | fuel + 1, acc =>
    let i := acc.length
    let w := rotl32 1 (acc.getD (i - 3) 0 ^^^ acc.getD (i - 8) 0 ^^^
      acc.getD (i - 14) 0 ^^^ acc.getD (i - 16) 0)
    sha1Extend fuel (acc ++ [w])

structure Sha1St where
  a : Nat
  b : Nat
  c : Nat
  d : Nat
  e : Nat
deriving DecidableEq

/-- The 80 compression rounds, `t` being the round index. -/
def sha1Rounds (t : Nat) (st : Sha1St) : List Nat → Sha1St
  | [] => st
  | w :: ws =>
    let f :=
      if t < 20 then (st.b &&& st.c) ||| ((st.b ^^^ 0xFFFFFFFF) &&& st.d)
      else if t < 40 then st.b ^^^ st.c ^^^ st.d
      else if t < 60 then (st.b &&& st.c) ||| (st.b &&& st.d) ||| (st.c &&& st.d)
      else st.b ^^^ st.c ^^^ st.d
    let k :=
      if t < 20 then 0x5A827999
      else if t < 40 then 0x6ED9EBA1
      else if t < 60 then 0x8F1BBCDC
      else 0xCA62C1D6
    let temp := (rotl32 5 st.a + f + st.e + k + w) % 4294967296
    sha1Rounds (t + 1) ⟨temp, st.a, rotl32 30 st.b, st.c, st.d⟩ ws

def sha1Compress (h : Sha1St) (block : List Nat) : Sha1St :=
  let ws := sha1Extend 64 (toWords block)
  let r := sha1Rounds 0 h ws
  ⟨(h.a + r.a) % 4294967296, (h.b + r.b) % 4294967296, (h.c + r.c) % 4294967296,
   (h.d + r.d) % 4294967296, (h.e + r.e) % 4294967296⟩

/-- Process `fuel` 64-byte blocks. -/
def sha1Loop : Nat → Sha1St → List Nat → Sha1St
  | 0, h, _ => h
  | fuel + 1, h, bytes => sha1Loop fuel (sha1Compress h (bytes.take 64)) (bytes.drop 64)

def hexLowerChar (n : Nat) : Char :=
  if n < 10 then Char.ofNat ('0'.toNat + n) else Char.ofNat ('a'.toNat + n - 10)

def word8Hex (n : Nat) : List Char :=
  (beBytes 4 n).flatMap fun b => [hexLowerChar (b / 16), hexLowerChar (b % 16)]

/-- Model of `hashlib.sha1(s.encode()).hexdigest()`. -/
def sha1Hex (s : String) : String :=
  let padded := sha1Pad (utf8Bytes s.data)
  let h := sha1Loop (padded.length / 64)
    ⟨0x67452301, 0xEFCDAB89, 0x98BADCFE, 0x10325476, 0xC3D2E1F0⟩ padded
  ⟨[h.a, h.b, h.c, h.d, h.e].flatMap word8Hex⟩

/-! ## Identity resolver (runner.py lines 165–324) -/

/-- Model of `get_hostname` (lines 165–171). -/
def get_hostname (url : String) : String :=
  match urlparseE url.data with
  | .ok p => ⟨p.netloc⟩
  | .error _ => ""

/-- One separator of the title-cleaning regexes: a dash class, a pipe, or a
double colon. -/
def dashSep : List Char → Option (List Char)
  | c :: r => if c == '-' || c == '–' || c == '—' then some r else none
  | [] => none

def pipeSep : List Char → Option (List Char)
  | c :: r => if c == '|' then some r else none
  | [] => none

def colonSep : List Char → Option (List Char)
  | ':' :: ':' :: r => some r
  | _ => none

/-- Try to match `\s* sep \s* [^excl]+ $` at the start of `s` (where `$` is
end-of-string or just before a final newline); returns the remainder left by
substituting the match with the empty string.  Since none of the separators
is whitespace, the leading `\s*` may as well be maximal, and since a space is
never the excluded character, `\s*[^excl]+$` matches the rest exactly when it
is non-empty and free of `excl` (greedily to the end, else up to a final
newline). -/
def tryAnchored (sep : List Char → Option (List Char)) (excl : Char)
    (s : List Char) : Option (List Char) :=
  match sep (s.dropWhile isSpaceChar) with
  | none => none
  | some r =>
    if r ≠ [] ∧ r.all (· ≠ excl) then some []
    else
      match r.reverse with
      | '\n' :: rev2 =>
        if rev2 ≠ [] ∧ rev2.all (· ≠ excl) then some ['\n'] else none
      | _ => none

/-- Model of `re.sub(pattern, '', s)` for the `$`-anchored patterns above: find the
leftmost start position carrying a match and delete the matched span. -/
def reSubAnchored (sep : List Char → Option (List Char)) (excl : Char) :
    List Char → List Char
  | [] => []
  | x :: xs =>
    match tryAnchored sep excl (x :: xs) with
    | some rem => rem
    | none => x :: reSubAnchored sep excl xs

/-- Model of `clean_canonical_name` (lines 174–196): strip a trailing `" - X"`,
`" | X"` or `" :: X"` segment; fall back to the original title when the
result strips to empty.  (`re.IGNORECASE` is immaterial: the patterns contain
no cased characters.) -/
def clean_canonical_name (title : String) : String :=
  if title = "" then ""
  else
    let c1 := reSubAnchored dashSep '|' title.data
    let c2 := reSubAnchored pipeSep '|' c1
    let c3 := reSubAnchored colonSep ':' c2
    let cleaned := stripL c3
    if cleaned ≠ [] then ⟨cleaned⟩ else title

/-- A raw search-result record.  String-valued fields default to `""` (the
`item.get(field, "")` convention); URL-bearing fields can be absent, a list,
or a delimiter-separated string; `score` models key presence and a possibly
null value. -/
inductive UrlsVal where
  | ofList (l : List String)
  | ofStr (s : String)
deriving DecidableEq

structure Item where
  link : String := ""
  title : String := ""
  snippet : String := ""
  company : String := ""
  product : String := ""
  name : String := ""
  canonical_name : String := ""
  one_liner : String := ""
  summary : String := ""
  excerpt : String := ""
  sources : Option UrlsVal := none
  links : Option UrlsVal := none
  evidence_urls : Option UrlsVal := none
  related_urls : Option UrlsVal := none
  score : Option (Option Int) := none
deriving DecidableEq

/-- Model of `generate_canonical_name` (lines 199–218). -/
def generate_canonical_name (item : Item) (title hostname : String) : String :=
  let fields := [item.company, item.product, item.name, item.canonical_name]
  match fields.find? (fun v => pyStrip v ≠ "") with
  | some v => pyStrip v
  | none =>
    if title ≠ "" ∧ clean_canonical_name title ≠ "" then clean_canonical_name title
    else if hostname ≠ "" then hostname
    else if title ≠ "" then title
    else "(untitled)"

/-- Model of `" ".join(s.split())`: collapse whitespace runs. -/
def joinSplit (s : String) : String :=
  ⟨List.intercalate " ".data
    (((splitAll ' ' (s.data.map fun c => if isSpaceChar c then ' ' else c)).filter
      (· ≠ [])))⟩

/-- The punctuation list scanned by the one-liner truncation. -/
def onePuncts : List Char := ['.', '。', '!', '！', '?', '？', ';', '；']

/-- The `> 120` truncation of `generate_one_liner`: cut to 120 characters,
prefer the first listed punctuation mark whose last position is after 80,
otherwise take 117 characters and an ellipsis. -/
def truncate120 (l : List Char) : List Char :=
  let truncated := l.take 120
  match onePuncts.find? (fun p =>
      match rfindChar p truncated with
      | some i => decide (80 < i)
      | none => false) with
  | some p =>
    match rfindChar p truncated with
    | some i => truncated.take (i + 1)
    | none => truncated.take 117 ++ "...".data
  | none => truncated.take 117 ++ "...".data

/-- Model of `generate_one_liner` (lines 221–260). -/
def generate_one_liner (item : Item) (description : String)
    (title : String := "") : String :=
  let fields := [item.one_liner, item.summary, item.excerpt]
  match fields.find? (fun v => pyStrip v ≠ "") with
  | some v =>
    let value := pyStrip v
    if 120 < value.data.length then ⟨value.data.take 117 ++ "...".data⟩ else value
  | none =>
    if description ≠ "" then
      let cleaned := (joinSplit description).data
      if 120 < cleaned.length then ⟨truncate120 cleaned⟩ else ⟨cleaned⟩
    else if title ≠ "" then
      let cleaned := (joinSplit title).data
      if 120 < cleaned.length then ⟨cleaned.take 117 ++ "...".data⟩ else ⟨cleaned⟩
    else "无描述"

/-- Model of `re.split(r'[,;]', s)`. -/
def splitCommaSemi (l : List Char) : List (List Char) :=
  splitAll ',' (l.map fun c => if c == ';' then ',' else c)

/-- Append `u`'s normalization to `acc` if it is non-empty and new; the `seen`
set of the Python code always holds exactly the members of `urls_list`. -/
def addNormalized (acc : List String) (u : String) : List String :=
  if u = "" then acc
  else
    let n := normalize_url u
    if n ≠ "" ∧ ¬ acc.contains n then acc ++ [n] else acc

/-- Merge one URL-bearing field into the accumulator. -/
def addUrlsVal (acc : List String) : Option UrlsVal → List String
  | none => acc
  | some (.ofList l) => l.foldl addNormalized acc
  | some (.ofStr s) =>
    if s = "" then acc
    else (splitCommaSemi s.data).foldl
      (fun a seg => let t : String := ⟨stripL seg⟩
        if t ≠ "" then addNormalized a t else a) acc

/-- Model of `generate_evidence_urls` (lines 263–300): normalized primary URL first,
then URLs from `sources`/`links`/`evidence_urls`/`related_urls`, deduplicated
in encounter order; the final assertion that the list is non-empty raises
(`Except.error`) when it fails. -/
def generate_evidence_urls (item : Item) (url : String) :
    Except Unit (List String) :=
  let acc := addNormalized [] url
  let acc := addUrlsVal acc item.sources
  let acc := addUrlsVal acc item.links
  let acc := addUrlsVal acc item.evidence_urls
  let acc := addUrlsVal acc item.related_urls
  if acc = [] then .error () else .ok acc

/-- Model of `compute_dedupe_key` (lines 303–324). -/
def compute_dedupe_key (url hostname canonical_name title : String) : String :=
  let n := normalize_url url
  if n ≠ "" then "url:" ++ sha1Hex n
  else
    let chosen := if canonical_name ≠ "" then canonical_name else title
    let keyStr := pyStrip (pyLower (hostname ++ "|" ++ chosen))
    "ht:" ++ sha1Hex keyStr

/-! ## `datetime` model

A Python `datetime` is modelled as seconds (`secs : Int`) together with its
awareness flag.  For an aware datetime `secs` is the UTC instant; for a naive
one it is the wall-clock reading interpreted as if it were UTC.  Subtracting
an aware and a naive datetime raises `TypeError` in Python, which is the
`Except.error` of `pyDtSub`.  `astimezone(tz=None)` converts an aware
datetime to the local timezone, whose UTC offset is passed around as an
explicit `localOffset` parameter. -/

structure PyDt where
  secs : Int
  aware : Bool
deriving DecidableEq

/-- Model of `datetime.__sub__`: mixing aware and naive raises `TypeError`. -/
def pyDtSub (a b : PyDt) : Except Unit Int :=
  if a.aware == b.aware then .ok (a.secs - b.secs) else .error ()

/-- Chop leading decimal digits: value, digit count, remainder. -/
def takeDigitsAcc (acc n : Nat) : List Char → Nat × Nat × List Char
  | [] => (acc, n, [])
  | c :: r =>
    if isAsciiDigit c then takeDigitsAcc (acc * 10 + (c.toNat - 48)) (n + 1) r
    else (acc, n, c :: r)

def digit2 (a b : Char) : Option Nat :=
  if isAsciiDigit a && isAsciiDigit b then
    some ((a.toNat - 48) * 10 + (b.toNat - 48))
  else none

def isLeapYear (y : Nat) : Bool :=
  (y % 4 == 0 && y % 100 != 0) || y % 400 == 0

def daysInMonth (y m : Nat) : Nat :=
  if m = 2 then (if isLeapYear y then 29 else 28)
  else if m = 4 ∨ m = 6 ∨ m = 9 ∨ m = 11 then 30
  else 31

/-- Days since 1970-01-01 of a proleptic-Gregorian date (Howard Hinnant's
`days_from_civil`). -/
def daysFromCivil (y m d : Int) : Int :=
  let y := y - (if m ≤ 2 then 1 else 0)
  let era := Int.fdiv y 400
  let yoe := y - era * 400
  let mp := Int.fdiv (m + 9) 12 * (-12) + m + 9
  let doy := Int.fdiv (153 * mp + 2) 5 + d - 1
  let doe := yoe * 365 + Int.fdiv yoe 4 - Int.fdiv yoe 100 + doy
  era * 146097 + doe - 719468

/-- Parse `[+-]HH:MM[:SS]` or a trailing `Z`/`z` as a UTC offset in
seconds. -/
def parseTzPart : List Char → Option Int
  | ['Z'] => some 0
  | ['z'] => some 0
  | sign :: h1 :: h2 :: ':' :: m1 :: m2 :: rest =>
    if sign == '+' || sign == '-' then
      match digit2 h1 h2, digit2 m1 m2 with
      | some hh, some mm =>
        if hh ≤ 23 && mm ≤ 59 then
          let base : Int := hh * 3600 + mm * 60
          match rest with
          | [] => some (if sign == '-' then -base else base)
          | ':' :: s1 :: s2 :: [] =>
            match digit2 s1 s2 with
            | some ss =>
              if ss ≤ 59 then
                let tot : Int := base + ss
                some (if sign == '-' then -tot else tot)
              else none
            | none => none
          | _ => none
        else none
      | _, _ => none
    else none
  | _ => none

/-- Parse `HH[:MM[:SS[.ffffff]]]` plus an optional timezone part; returns
(seconds within the day, UTC offset if aware). -/
def parseTimePart (l : List Char) : Option (Nat × Option Int) :=
  match l with
  | h1 :: h2 :: rest =>
    match digit2 h1 h2 with
    | none => none
    | some hh =>
      if hh ≥ 24 then none
      else
        match rest with
        | ':' :: m1 :: m2 :: rest2 =>
          match digit2 m1 m2 with
          | none => none
          | some mm =>
            if mm ≥ 60 then none
            else
              match rest2 with
              | ':' :: s1 :: s2 :: rest3 =>
                match digit2 s1 s2 with
                | none => none
                | some ss =>
                  if ss ≥ 60 then none
                  else
                    let afterFrac :=
                      match rest3 with
                      | '.' :: fr =>
                        let t := takeDigitsAcc 0 0 fr
                        if t.2.1 = 0 ∨ 6 < t.2.1 then none else some t.2.2
                      | ',' :: fr =>
                        let t := takeDigitsAcc 0 0 fr
                        if t.2.1 = 0 ∨ 6 < t.2.1 then none else some t.2.2
                      | other => some other
                    match afterFrac with
                    | none => none
                    | some [] => some (hh * 3600 + mm * 60 + ss, none)
                    | some tzl =>
                      match parseTzPart tzl with
                      | some off => some (hh * 3600 + mm * 60 + ss, some off)
                      | none => none
              | [] => some (hh * 3600 + mm * 60, none)
              | tzl =>
                match parseTzPart tzl with
                | some off => some (hh * 3600 + mm * 60, some off)
                | none => none
        | [] => some (hh * 3600, none)
        | tzl =>
          match parseTzPart tzl with
          | some off => some (hh * 3600, some off)
          | none => none
  | _ => none

/-- Model of `datetime.fromisoformat` (CPython 3.11), restricted to the
`YYYY-MM-DD[<sep>HH[:MM[:SS[.ffffff]]][<tz>]]` shapes the repository can
meet; fractional seconds are validated but do not contribute to `secs`. -/
def pyFromIsoformat (s : String) : Except Unit PyDt :=
  match s.data with
  | y1 :: y2 :: y3 :: y4 :: '-' :: m1 :: m2 :: '-' :: d1 :: d2 :: rest =>
    match digit2 y1 y2, digit2 y3 y4, digit2 m1 m2, digit2 d1 d2 with
    | some yh, some yl, some mth, some dd =>
      let yy := yh * 100 + yl
      if mth = 0 ∨ 12 < mth ∨ dd = 0 ∨ daysInMonth yy mth < dd then .error ()
      else
        let dayS : Int := daysFromCivil yy mth dd * 86400
        match rest with
        | [] => .ok ⟨dayS, false⟩
        | _sep :: t =>
          match parseTimePart t with
          | some (sod, none) => .ok ⟨dayS + sod, false⟩
          | some (sod, some off) => .ok ⟨dayS + sod - off, true⟩
          | none => .error ()
    | _, _, _, _ => .error ()
  | _ => .error ()

/-- Model of `s.replace('Z', '+00:00')`. -/
def replaceZ (s : String) : String :=
  ⟨s.data.flatMap fun c => if c == 'Z' then "+00:00".data else [c]⟩

/-- The `try` block of runner.py lines 517–541: parse `dismissed_at`, convert
it to a naive datetime (`astimezone(tz=None).replace(tzinfo=None)` when
aware), and subtract it from the aware `now`.  Because `now` carries
`timezone.utc` while `dismissed_at_utc` is always naive, the subtraction
raises `TypeError` for every input, so this computation never yields a
value. -/
def dismissedElapsed (localOffset now : Int) (s : String) : Except Unit Int := do
  let d ← pyFromIsoformat (replaceZ s)
  let dUtc : PyDt := if d.aware then ⟨d.secs + localOffset, false⟩ else ⟨d.secs, false⟩
  pyDtSub ⟨now, true⟩ dUtc

/-! ## Persistent store model

A `deals` row.  Timestamp-valued columns (`first_seen_at`, `last_seen_at`,
`created_at`, `updated_at`) are modelled as UTC instants (`Int` seconds):
every write the runner performs goes through `datetime.now(timezone.utc)
.isoformat()`, and ISO-8601 serialization of UTC instants is injective and
order-preserving, so the store-side comparisons (`gte`/`gt` filters) are
instant comparisons.  `dismissed_at` is kept as the raw string column value:
it is written by out-of-scope curation and consumed textually by
`datetime.fromisoformat`. -/

structure Deal where
  id : Nat
  dedupe_key : String
  title : String := ""
  url : String := ""
  description : String := ""
  canonical_name : String := ""
  one_liner : String := ""
  evidence_urls : List String := []
  topic : String := ""
  hostname : String := ""
  status : String := "new"
  seen_count : Option Nat := none
  first_seen_at : Option Int := none
  last_seen_at : Option Int := none
  dismissed_reason : Option String := none
  dismissed_at : Option String := none
  score : Option Int := none
  created_at : Option Int := none
  updated_at : Option Int := none
deriving DecidableEq

/-- The store handle plus failure oracles for its fallible calls: `lookupFails`
and `writeFails` decide, per dedupe key, whether the per-record select/upsert
raises; the remaining flags control the select/update calls of the fallback
pass and the health checker. -/
structure Client where
  store : List Deal := []
  nextId : Nat := 0
  lookupFails : String → Bool := fun _ => false
  writeFails : String → Bool := fun _ => false
  reactivateSelectFails : Bool := false
  reactivateUpdateFails : Nat → Bool := fun _ => false
  healthSelectFails : Bool := false
  archivedSelectFails : Bool := false

/-- Model of `.eq("dedupe_key", k).limit(1)`: the first row with the given key. -/
def findByKey (store : List Deal) (k : String) : Option Deal :=
  match store with
  | [] => none
  | d :: rest => if d.dedupe_key == k then some d else findByKey rest k

/-- The payload dict built by `upsert_deals` (lines 556–595).  Optional
components model keys that are only conditionally present: `created_at` and
`first_seen_at` are set on insert only; `statusTriple` models the
`status`/`dismissed_reason`/`dismissed_at` keys set only when rule B fires;
`score` models the optional `score` key (whose value may itself be null). -/
structure DealData where
  dedupe_key : String
  title : String
  url : String
  description : String
  canonical_name : String
  one_liner : String
  evidence_urls : List String
  topic : String
  hostname : String
  last_seen_at : Int
  seen_count : Nat
  updated_at : Int
  created_at : Option Int := none
  first_seen_at : Option Int := none
  statusTriple : Option (String × Option String × Option String) := none
  score : Option (Option Int) := none
deriving DecidableEq

/-- Model of `ON CONFLICT ... DO UPDATE`: overwrite exactly the columns present in the
payload, keep the rest. -/
def applyData (data : DealData) (d : Deal) : Deal :=
  { d with
    dedupe_key := data.dedupe_key
    title := data.title
    url := data.url
    description := data.description
    canonical_name := data.canonical_name
    one_liner := data.one_liner
    evidence_urls := data.evidence_urls
    topic := data.topic
    hostname := data.hostname
    last_seen_at := some data.last_seen_at
    seen_count := some data.seen_count
    updated_at := some data.updated_at
    created_at := match data.created_at with | some t => some t | none => d.created_at
    first_seen_at := match data.first_seen_at with | some t => some t | none => d.first_seen_at
    status := match data.statusTriple with | some tr => tr.1 | none => d.status
    dismissed_reason := match data.statusTriple with | some tr => tr.2.1 | none => d.dismissed_reason
    dismissed_at := match data.statusTriple with | some tr => tr.2.2 | none => d.dismissed_at
    score := match data.score with | some v => v | none => d.score }

/-- Row created by an insert; the `status` column is absent from the payload,
so the database default `'new'` applies, and absent nullable columns are
null. -/
def newDeal (id : Nat) (data : DealData) : Deal :=
  { id := id
    dedupe_key := data.dedupe_key
    title := data.title
    url := data.url
    description := data.description
    canonical_name := data.canonical_name
    one_liner := data.one_liner
    evidence_urls := data.evidence_urls
    topic := data.topic
    hostname := data.hostname
    status := "new"
    seen_count := some data.seen_count
    first_seen_at := data.first_seen_at
    last_seen_at := some data.last_seen_at
    dismissed_reason := none
    dismissed_at := none
    score := data.score.getD none
    created_at := data.created_at
    updated_at := some data.updated_at }

/-- Model of `upsert(data, on_conflict="dedupe_key")`: update the row with the key if
one exists, else insert a fresh row. -/
def upsertRow (store : List Deal) (nextId : Nat) (data : DealData) :
    List Deal × Nat :=
  if (findByKey store data.dedupe_key).isSome then
    (store.map fun d =>
      if d.dedupe_key == data.dedupe_key then applyData data d else d, nextId)
  else (store ++ [newDeal nextId data], nextId + 1)

/-! ## Dedup/upsert engine (`upsert_deals`, lines 400–626) -/

/-- Merge loop of lines 473–478: start from the existing list and append each
new URL not yet present (the Python `seen` set always holds exactly the
members of the accumulated list). -/
def mergeEvidence : List String → List String → List String
  | acc, [] => acc
  | acc, u :: rest =>
    if acc.contains u then mergeEvidence acc rest
    else mergeEvidence (acc ++ [u]) rest

def EVIDENCE_URLS_MAX : Nat := 20

/-- Lines 481–482: keep only the newest `EVIDENCE_URLS_MAX` entries. -/
def clipEvidence (l : List String) : List String :=
  if EVIDENCE_URLS_MAX < l.length then l.drop (l.length - EVIDENCE_URLS_MAX) else l

structure Stats where
  processed : Nat := 0
  reactivated : Nat := 0
  errors : Nat := 0
deriving DecidableEq

/-- Rules A and B (lines 498–551) as a function of the existing row: keep a
`shortlisted` status untouched; reactivate a `dismissed` row — set
`status = 'new'` and clear the dismissal columns — when the elapsed-time
computation succeeds within 7 days, or when `dismissed_at` is absent (legacy
data); otherwise leave the status columns out of the payload. -/
def ruleBStatus (ed : Deal) (lo now : Int) :
    Option (String × Option String × Option String) :=
  if some ed.status == some "shortlisted" then none
  else if some ed.status == some "dismissed" then
    match ed.dismissed_at with
    | some s =>
      match dismissedElapsed lo now s with
      | .ok diff => if diff ≤ 7 * 86400 then some ("new", none, none) else none
      | .error _ => none
    | none => some ("new", none, none)
  else none

/-- The payload dict of lines 556–595, parametrised by the merge results. -/
def buildData (item : Item) (topic : String) (now : Int) (dedupe_key : String)
    (evidence_urls : List String) (seen_count : Nat) (isNew : Bool)
    (statusTriple : Option (String × Option String × Option String)) :
    DealData :=
  { dedupe_key := dedupe_key
    title := item.title
    url := normalize_url item.link
    description := item.snippet
    canonical_name := generate_canonical_name item item.title (get_hostname item.link)
    one_liner := generate_one_liner item item.snippet item.title
    evidence_urls := evidence_urls
    topic := topic
    hostname := get_hostname item.link
    last_seen_at := now
    seen_count := seen_count
    updated_at := now
    created_at := if isNew then some now else none
    first_seen_at := if isNew then some now else none
    statusTriple := statusTriple
    score := item.score }

/-- One iteration of the `for item in items` loop of `upsert_deals`.  The
three bare `assert` statements (lines 437–439) are uncaught, so a failing one
aborts the whole batch (`Except.error`); a lookup failure counts an error and
skips the record; an `archived` row short-circuits before any mutation; a
write failure is caught but counted nowhere. -/
def processItem (lo now : Int) (topic : String) (st : Client × Stats)
    (item : Item) : Except Unit (Client × Stats) :=
  let cl := st.1
  let stats := st.2
  let url := item.link
  let title := item.title
  if url = "" ∨ title = "" then .ok (cl, stats)
  else
    let hostname := get_hostname url
    let description := item.snippet
    let canonical_name := generate_canonical_name item title hostname
    let one_liner := generate_one_liner item description title
    match generate_evidence_urls item url with
    | .error e => .error e
    | .ok new_evidence_urls =>
      -- line 431's `normalized_url` reappears as the `url` field of `buildData`
      let dedupe_key := compute_dedupe_key url hostname canonical_name title
      if canonical_name = "" ∨ pyStrip canonical_name = "" then .error ()
      else if one_liner = "" ∨ pyStrip one_liner = "" then .error ()
      else if new_evidence_urls = [] then .error ()
      else if cl.lookupFails dedupe_key then
        .ok (cl, { stats with errors := stats.errors + 1 })
      else
        match findByKey cl.store dedupe_key with
        | some ed =>
          if ed.status == "archived" then .ok (cl, stats)
          else
            let statusTriple := ruleBStatus ed lo now
            let reactInc := if statusTriple.isSome then 1 else 0
            let data : DealData :=
              buildData item topic now dedupe_key
                (clipEvidence (mergeEvidence ed.evidence_urls new_evidence_urls))
                (ed.seen_count.getD 0 + 1) false statusTriple
            if cl.writeFails dedupe_key then
              .ok (cl, { stats with reactivated := stats.reactivated + reactInc })
            else
              let r := upsertRow cl.store cl.nextId data
              .ok ({ cl with store := r.1, nextId := r.2 },
                { stats with processed := stats.processed + 1,
                             reactivated := stats.reactivated + reactInc })
        | none =>
          -- a fresh insert: rule B cannot fire, so `reactInc` is 0
          let data : DealData :=
            buildData item topic now dedupe_key
              (new_evidence_urls.take EVIDENCE_URLS_MAX) 1 true none
          if cl.writeFails dedupe_key then .ok (cl, stats)
          else
            let r := upsertRow cl.store cl.nextId data
            .ok ({ cl with store := r.1, nextId := r.2 },
              { stats with processed := stats.processed + 1 })

/-- Model of `upsert_deals(client, items, topic_name)`.  (The `if not client` early
return is not modelled: `main` aborts before the engine when no client could
be built.)  `lo` is the local UTC offset, `now` the batch timestamp. -/
def upsert_deals (cl : Client) (items : List Item) (topic : String)
    (lo now : Int) : Except Unit (Stats × Client) := do
  let r ← items.foldlM (processItem lo now topic) (cl, {})
  return (r.2, r.1)

/-! ## DB-side reactivation fallback (`reactivate_dismissed_deals`,
lines 629–682) -/

/-- The fallback's select filter:
`status = dismissed AND last_seen_at >= now - 7 days` (a null `last_seen_at`
never passes the store-side comparison). -/
def reactivateFilter (now2 : Int) (d : Deal) : Bool :=
  d.status == "dismissed" &&
    (match d.last_seen_at with
     | some t => decide (now2 - 7 * 86400 ≤ t)
     | none => false)

/-- The fallback's per-row update payload. -/
def markReactivated (now2 : Int) (d : Deal) : Deal :=
  { d with status := "new", dismissed_reason := none, dismissed_at := none,
           updated_at := some now2 }

/-- One step of the fallback's per-id update loop: skip the row when its
update call fails, else rewrite the row with that id. -/
def reactivateStep (now2 : Int) (acc : Client × Nat) (i : Nat) : Client × Nat :=
  if acc.1.reactivateUpdateFails i then acc
  else
    ({ acc.1 with store := acc.1.store.map fun d =>
        if d.id == i then markReactivated now2 d else d },
     acc.2 + 1)

/-- Select the dismissed rows seen in the last 7 days, then set each selected
row to `new`, clearing the dismissal columns; a failing per-row update is
skipped.  If the initial select fails the function returns 0.  (Python calls
`datetime.now` again per update; all those instants are modelled as the one
`now2`.) -/
def reactivate_dismissed_deals (cl : Client) (now2 : Int) : Client × Nat :=
  if cl.reactivateSelectFails then (cl, 0)
  else
    let ids := (cl.store.filter (reactivateFilter now2)).map Deal.id
    ids.foldl (reactivateStep now2) (cl, 0)

/-! ## Health checker (`health_check_deals`, lines 685–768) and the
archived-protection exit decision of `main` (lines 1008–1014) -/

structure HealthResult where
  evidence_over_20 : Nat
  seen_count_null : Nat
  latest_last_seen_at : Option Int
  archived_updated_last_2h : Nat
deriving DecidableEq

/-- The all-zero report returned when the checker cannot read the store. -/
def emptyHealth : HealthResult := ⟨0, 0, none, 0⟩

/-- Model of `health_check_deals(client, run_started_at)`: count rows with more than
20 evidence URLs and rows with a null `seen_count`, report the newest
`last_seen_at`, and count `archived` rows whose `last_seen_at` is strictly
newer than `run_started_at` (or `now - 60 min` when absent).  Any failure of
the main read yields the all-zero report; a failure of the archived query
leaves that count at 0. -/
def health_check_deals (cl : Client) (run_started_at : Option Int)
    (now3 : Int) : HealthResult :=
  if cl.healthSelectFails then emptyHealth
  else
    let deals := cl.store
    let ev := (deals.filter fun d => decide (20 < d.evidence_urls.length)).length
    let nulls := (deals.filter fun d => d.seen_count.isNone).length
    let latest := deals.foldl (fun acc d =>
      match d.last_seen_at with
      | some t =>
        match acc with
        | none => some t
        | some m => if m < t then some t else some m
      | none => acc) none
    let archived :=
      if cl.archivedSelectFails then 0
      else
        let threshold := match run_started_at with | some t => t | none => now3 - 3600
        (deals.filter fun d =>
          d.status == "archived" &&
            (match d.last_seen_at with
             | some t => decide (threshold < t)
             | none => false)).length
    ⟨ev, nulls, latest, archived⟩

/-- The hard-failure decision `main` takes from the health report: exit code
1 exactly when `archived_updated_last_2h > 0`. -/
def archivedExitCode (h : HealthResult) : Nat :=
  if 0 < h.archived_updated_last_2h then 1 else 0

/-- One whole run as far as the status lifecycle is concerned: the batch
upsert followed by the DB-side fallback pass. -/
def runUpsertThenFallback (cl : Client) (items : List Item) (topic : String)
    (lo now now2 : Int) : Except Unit (Stats × Client × Nat) := do
  let (stats, cl1) ← upsert_deals cl items topic lo now
  let (cl2, n) := reactivate_dismissed_deals cl1 now2
  return (stats, cl2, n)

/-! ## Supporting lemmas -/

/-- The aware `now` minus the always-naive converted `dismissed_at` raises for
every input: the elapsed-time computation of rule B never produces a value. -/
theorem dismissedElapsed_error (lo now : Int) (s : String) :
    dismissedElapsed lo now s = .error () := by
  unfold dismissedElapsed
  cases h : pyFromIsoformat (replaceZ s) with
  | error e => cases e; rfl
  | ok d =>
    obtain ⟨secs, aware⟩ := d
    cases aware <;> rfl

/-- A found row satisfies the key predicate. -/
theorem findByKey_key (store : List Deal) (k : String) (d : Deal)
    (h : findByKey store k = some d) : d.dedupe_key = k := by
  induction store with
  | nil => simp [findByKey] at h
  | cons a l ih =>
    unfold findByKey at h
    by_cases hc : (a.dedupe_key == k) = true
    · simp only [hc, if_true] at h
      obtain rfl : a = d := by injection h
      exact by simpa using hc
    · simp only [hc, if_false] at h
      exact ih h

theorem findByKey_mem (store : List Deal) (k : String) (d : Deal)
    (h : findByKey store k = some d) : d ∈ store := by
  induction store with
  | nil => simp [findByKey] at h
  | cons a l ih =>
    unfold findByKey at h
    by_cases hc : (a.dedupe_key == k) = true
    · simp only [hc, if_true] at h
      obtain rfl : a = d := by injection h
      exact List.mem_cons_self a l
    · simp only [hc, if_false] at h
      exact List.mem_cons_of_mem a (ih h)

/-- Mapping a key-preserving function over the store maps the found row. -/
theorem findByKey_map (g : Deal → Deal)
    (hg : ∀ x, (g x).dedupe_key = x.dedupe_key) (store : List Deal)
    (k : String) (d : Deal) (h : findByKey store k = some d) :
    findByKey (store.map g) k = some (g d) := by
  induction store with
  | nil => simp [findByKey] at h
  | cons a l ih =>
    unfold findByKey at h ⊢
    rw [List.map_cons]
    by_cases hc : (a.dedupe_key == k) = true
    · simp only [hc, if_true] at h
      simp only [hg, hc, if_true]
      obtain rfl : a = d := by injection h
      rfl
    · simp only [hc, if_false] at h
      simp only [hg, hc, if_false]
      exact ih h

/-- Finding in an extended store when the first part already answers. -/
theorem findByKey_append (store ext : List Deal) (k : String) (d : Deal)
    (h : findByKey store k = some d) : findByKey (store ++ ext) k = some d := by
  induction store with
  | nil => simp [findByKey] at h
  | cons a l ih =>
    unfold findByKey at h ⊢
    rw [List.cons_append]
    by_cases hc : (a.dedupe_key == k) = true
    · simp only [hc, if_true] at h ⊢
      exact h
    · simp only [hc, if_false] at h ⊢
      exact ih h

/-- The evidence merge preserves `Nodup`. -/
theorem mergeEvidence_nodup (new : List String) (old : List String)
    (h : old.Nodup) : (mergeEvidence old new).Nodup := by
  induction new generalizing old with
  | nil => simpa [mergeEvidence] using h
  | cons u rest ih =>
    unfold mergeEvidence
    by_cases hu : old.contains u
    · simp only [hu, if_true]
      exact ih old h
    · simp only [hu, if_false]
      refine ih (old ++ [u]) ?_
      have hnm : u ∉ old := by simpa using hu
      simpa [List.nodup_append] using ⟨h, hnm⟩

/-- Clipping keeps `Nodup`. -/
theorem clipEvidence_nodup (l : List String) (h : l.Nodup) :
    (clipEvidence l).Nodup := by
  unfold clipEvidence
  split
  · exact h.sublist (List.drop_sublist _ _)
  · exact h

/-- The clipped list never exceeds the bound. -/
theorem clipEvidence_length (l : List String) :
    (clipEvidence l).length ≤ EVIDENCE_URLS_MAX := by
  unfold clipEvidence
  split
  · simp only [List.length_drop]
    omega
  · omega

/-- When the merge result overflows, exactly the newest
`EVIDENCE_URLS_MAX` entries survive. -/
theorem clipEvidence_overflow (l : List String)
    (h : EVIDENCE_URLS_MAX < l.length) :
    clipEvidence l = l.drop (l.length - EVIDENCE_URLS_MAX) := by
  unfold clipEvidence
  simp [h]

theorem exc_bind_ok {α β ε : Type} (a : α) (f : α → Except ε β) :
    (Except.ok a >>= f) = f a := rfl

theorem exc_bind_err {α β ε : Type} (e : ε) (f : α → Except ε β) :
    ((Except.error e : Except ε α) >>= f) = Except.error e := rfl

theorem exc_pure {α ε : Type} (a : α) : (pure a : Except ε α) = Except.ok a := rfl

/-- A successful evidence generation never returns the empty list (the
assertion would have fired). -/
theorem generate_evidence_urls_ok_ne_nil (item : Item) (u : String)
    (evs : List String) (h : generate_evidence_urls item u = .ok evs) :
    evs ≠ [] := by
  unfold generate_evidence_urls at h
  have key : ∀ acc : List String,
      (if acc = [] then (Except.error () : Except Unit (List String))
        else .ok acc) = .ok evs → evs ≠ [] := by
    intro acc hacc
    split at hacc
    · cases hacc
    · rename_i hne
      obtain rfl : acc = evs := by injection hacc
      exact hne
  exact key _ h

/-- Rule B never fires for a `dismissed` row carrying a `dismissed_at` value:
the elapsed-time computation always raises. -/
theorem ruleBStatus_dismissed_present (ed : Deal) (lo now : Int) (s : String)
    (hst : ed.status = "dismissed") (hda : ed.dismissed_at = some s) :
    ruleBStatus ed lo now = none := by
  unfold ruleBStatus
  rw [hst, hda]
  simp [dismissedElapsed_error]

theorem ruleBStatus_other (ed : Deal) (lo now : Int)
    (h1 : ed.status ≠ "shortlisted") (h2 : ed.status ≠ "dismissed") :
    ruleBStatus ed lo now = none := by
  unfold ruleBStatus
  simp [h1, h2]

theorem buildData_key (item : Item) (topic : String) (now : Int) (k : String)
    (ev : List String) (sc : Nat) (isNew : Bool)
    (tr : Option (String × Option String × Option String)) :
    (buildData item topic now k ev sc isNew tr).dedupe_key = k := rfl

/-- A one-record batch is one `processItem` step. -/
theorem upsert_deals_single (cl : Client) (item : Item) (topic : String)
    (lo now : Int) :
    upsert_deals cl [item] topic lo now =
      (processItem lo now topic (cl, {}) item).map fun r => (r.2, r.1) := by
  unfold upsert_deals
  cases h : processItem lo now topic (cl, {}) item with
  | error e => simp [List.foldlM, h, exc_bind_err, Except.map]
  | ok r => simp [List.foldlM, h, exc_bind_ok, exc_pure, Except.map]

/-- A two-record batch is two `processItem` steps. -/
theorem upsert_deals_pair (cl : Client) (item1 item2 : Item) (topic : String)
    (lo now : Int) :
    upsert_deals cl [item1, item2] topic lo now =
      ((processItem lo now topic (cl, {}) item1).bind fun r =>
        processItem lo now topic r item2).map fun r => (r.2, r.1) := by
  unfold upsert_deals
  cases h1 : processItem lo now topic (cl, {}) item1 with
  | error e => simp [List.foldlM, h1, exc_bind_err, Except.map, Except.bind]
  | ok r =>
    cases h2 : processItem lo now topic r item2 with
    | error e =>
      simp [List.foldlM, h1, h2, exc_bind_ok, exc_bind_err, Except.map, Except.bind]
    | ok r2 =>
      simp [List.foldlM, h1, h2, exc_bind_ok, exc_pure, Except.map, Except.bind]

/-- Evaluation of one engine step on a valid record whose key matches an
existing, non-archived row, with working lookup and write: the row is merged
(union-and-clip evidence, incremented `seen_count`) and rules A/B decide the
status columns; `processed` advances, and `reactivated` advances exactly when
rule B fired. -/
theorem processItem_existing_eval
    (lo now : Int) (topic : String) (cl : Client) (stats : Stats)
    (item : Item) (k : String) (d : Deal) (evs : List String)
    (hk : k = compute_dedupe_key item.link (get_hostname item.link)
      (generate_canonical_name item item.title (get_hostname item.link)) item.title)
    (hurl : item.link ≠ "") (htitle : item.title ≠ "")
    (hev : generate_evidence_urls item item.link = .ok evs)
    (hcan : pyStrip (generate_canonical_name item item.title (get_hostname item.link)) ≠ "")
    (hone : pyStrip (generate_one_liner item item.snippet item.title) ≠ "")
    (hlk : cl.lookupFails k = false)
    (hfind : findByKey cl.store k = some d)
    (harch : d.status ≠ "archived")
    (hwr : cl.writeFails k = false) :
    processItem lo now topic (cl, stats) item = .ok
      ({ cl with store := cl.store.map fun x =>
          if x.dedupe_key == k then
            applyData (buildData item topic now k
              (clipEvidence (mergeEvidence d.evidence_urls evs))
              (d.seen_count.getD 0 + 1) false (ruleBStatus d lo now)) x
          else x },
       { stats with processed := stats.processed + 1,
                    reactivated := stats.reactivated +
                      (if (ruleBStatus d lo now).isSome then 1 else 0) }) := by
  have hcan0 : generate_canonical_name item item.title (get_hostname item.link) ≠ "" := by
    intro hh; exact hcan (by rw [hh]; rfl)
  have hone0 : generate_one_liner item item.snippet item.title ≠ "" := by
    intro hh; exact hone (by rw [hh]; rfl)
  have hevne := generate_evidence_urls_ok_ne_nil item item.link evs hev
  have harchb : (d.status == "archived") = false := by simpa using harch
  subst hk
  unfold processItem
  simp only [hurl, htitle, hev, exc_bind_ok, hcan, hcan0, hone, hone0, hevne,
    hlk, hfind, harchb, hwr, upsertRow, buildData_key, Option.isSome_some,
    Option.isNone_some, if_false, if_true, Bool.false_eq_true, or_self,
    ite_false, ite_true]

/-- Evaluation of one engine step on a valid record whose key matches an
existing `archived` row: a total no-op. -/
theorem processItem_archived_eval
    (lo now : Int) (topic : String) (cl : Client) (stats : Stats)
    (item : Item) (k : String) (d : Deal) (evs : List String)
    (hk : k = compute_dedupe_key item.link (get_hostname item.link)
      (generate_canonical_name item item.title (get_hostname item.link)) item.title)
    (hurl : item.link ≠ "") (htitle : item.title ≠ "")
    (hev : generate_evidence_urls item item.link = .ok evs)
    (hcan : pyStrip (generate_canonical_name item item.title (get_hostname item.link)) ≠ "")
    (hone : pyStrip (generate_one_liner item item.snippet item.title) ≠ "")
    (hlk : cl.lookupFails k = false)
    (hfind : findByKey cl.store k = some d)
    (harch : d.status = "archived") :
    processItem lo now topic (cl, stats) item = .ok (cl, stats) := by
  have hcan0 : generate_canonical_name item item.title (get_hostname item.link) ≠ "" := by
    intro hh; exact hcan (by rw [hh]; rfl)
  have hone0 : generate_one_liner item item.snippet item.title ≠ "" := by
    intro hh; exact hone (by rw [hh]; rfl)
  have hevne := generate_evidence_urls_ok_ne_nil item item.link evs hev
  have harchb : (d.status == "archived") = true := by simp [harch]
  subst hk
  unfold processItem
  simp only [hurl, htitle, hev, exc_bind_ok, hcan, hcan0, hone, hone0, hevne,
    hlk, hfind, harchb, if_false, if_true, Bool.false_eq_true, or_self,
    ite_false, ite_true]

/-- Evaluation of one engine step on a valid record with no matching row:
a fresh row is inserted with the evidence clipped to the bound, a
`seen_count` of 1, and the database-default `new` status. -/
theorem processItem_insert_eval
    (lo now : Int) (topic : String) (cl : Client) (stats : Stats)
    (item : Item) (k : String) (evs : List String)
    (hk : k = compute_dedupe_key item.link (get_hostname item.link)
      (generate_canonical_name item item.title (get_hostname item.link)) item.title)
    (hurl : item.link ≠ "") (htitle : item.title ≠ "")
    (hev : generate_evidence_urls item item.link = .ok evs)
    (hcan : pyStrip (generate_canonical_name item item.title (get_hostname item.link)) ≠ "")
    (hone : pyStrip (generate_one_liner item item.snippet item.title) ≠ "")
    (hlk : cl.lookupFails k = false)
    (hfind : findByKey cl.store k = none)
    (hwr : cl.writeFails k = false) :
    processItem lo now topic (cl, stats) item = .ok
      ({ cl with
          store :=
            cl.store ++ [newDeal cl.nextId
              (buildData item topic now k (evs.take EVIDENCE_URLS_MAX) 1 true none)]
          nextId := cl.nextId + 1 },
       { stats with processed := stats.processed + 1 }) := by
  have hcan0 : generate_canonical_name item item.title (get_hostname item.link) ≠ "" := by
    intro hh; exact hcan (by rw [hh]; rfl)
  have hone0 : generate_one_liner item item.snippet item.title ≠ "" := by
    intro hh; exact hone (by rw [hh]; rfl)
  have hevne := generate_evidence_urls_ok_ne_nil item item.link evs hev
  subst hk
  unfold processItem
  simp only [hurl, htitle, hev, exc_bind_ok, hcan, hcan0, hone, hone0, hevne,
    hlk, hfind, upsertRow, buildData_key, Option.isSome_none, Option.isNone_none,
    hwr, if_false, if_true, Bool.false_eq_true, or_self, ite_false, ite_true,
    Option.isSome_none, add_zero]

/-! ## Claims -/

/-- C3: the claim `normalize_url (normalize_url x) = normalize_url x` for
every string `x` fails on the code: with `x = "www.www.example.com"` the
first pass strips a single `www.` label, giving
`https://www.example.com`, and the second pass strips another one, giving
`https://example.com`.  This contradicts the idempotence contract the
specification states for the normalizer (a code bug: re-normalizing the
normalizer's own output changes it again). -/
theorem normalize_url_idempotence_fails :
    normalize_url "www.www.example.com" = "https://www.example.com" ∧
    normalize_url (normalize_url "www.www.example.com") = "https://example.com" ∧
    normalize_url (normalize_url "www.www.example.com") ≠
      normalize_url "www.www.example.com" :=
  ⟨by decide, by decide, by decide⟩

/-- C8: `compute_dedupe_key` depends only on the normalized URL whenever that
is non-empty — records whose URLs normalize to the same non-empty string get
the same key, whatever their hostname, canonical name or title. -/
theorem dedupe_key_determined_by_normalized_url
    (u1 h1 c1 t1 u2 h2 c2 t2 : String)
    (heq : normalize_url u1 = normalize_url u2)
    (hne : normalize_url u1 ≠ "") :
    compute_dedupe_key u1 h1 c1 t1 = compute_dedupe_key u2 h2 c2 t2 := by
  unfold compute_dedupe_key
  rw [← heq]
  simp [hne]

/-- Witness for C8 at concrete inputs: differing titles, hostnames and
canonical names, same normalized URL. -/
theorem dedupe_key_determined_by_normalized_url_witness :
    normalize_url "https://example.com/a" = normalize_url "example.com/a" ∧
    normalize_url "https://example.com/a" ≠ "" ∧
    compute_dedupe_key "https://example.com/a" "example.com" "Foo" "FOO TITLE" =
      compute_dedupe_key "example.com/a" "other.host" "Bar" "bar title" :=
  ⟨by decide, by decide,
    dedupe_key_determined_by_normalized_url _ _ _ _ _ _ _ _ (by decide) (by decide)⟩

/-- C10: when the health checker's store read fails, it returns the all-zero
report (`evidence_over_20 = 0`, `seen_count_null = 0`,
`latest_last_seen_at = null`, `archived_updated_last_2h = 0`), so `main`'s
archived-protection hard failure (exit code 1) can never be triggered by a
failure of the checker itself. -/
theorem health_check_failure_yields_zero_exit (cl : Client)
    (rs : Option Int) (now3 : Int) (h : cl.healthSelectFails = true) :
    health_check_deals cl rs now3 = emptyHealth ∧
    archivedExitCode (health_check_deals cl rs now3) = 0 := by
  have h1 : health_check_deals cl rs now3 = emptyHealth := by
    unfold health_check_deals
    rw [h]
    rfl
  exact ⟨h1, by rw [h1]; rfl⟩

/-- Witness for C10: a concrete client whose store read fails. -/
theorem health_check_failure_yields_zero_exit_witness :
    health_check_deals { healthSelectFails := true } none 0 = emptyHealth ∧
    archivedExitCode (health_check_deals { healthSelectFails := true } none 0) = 0 :=
  health_check_failure_yields_zero_exit _ _ _ rfl

/-- C6: the claim that both lookup failures and write failures are counted in
the returned `errors` fails on the code.  At a concrete batch whose only
(valid) record suffers a write failure, the engine returns
`{processed := 0, reactivated := 0, errors := 0}` — the write failure is
caught and the batch continues, but no counter records it (`error_count` is
only incremented at the lookup site, lines 452–455, never at the write site,
lines 609–614 — although the summary print labels `error_count` as write
failures).  The second conjunct shows lookup failures, by contrast, are
counted and non-fatal. -/
theorem write_failure_not_counted_in_errors :
    (upsert_deals { writeFails := fun _ => true }
        [{ link := "https://example.com/a", title := "Foo", snippet := "hi" }]
        "ai" 0 100).map (fun r => (r.1, r.2.store.length)) =
      .ok (⟨0, 0, 0⟩, 0) ∧
    (upsert_deals { lookupFails := fun _ => true }
        [{ link := "https://example.com/a", title := "Foo", snippet := "hi" },
         { link := "https://example.com/b", title := "Bar", snippet := "ho" }]
        "ai" 0 100).map (fun r => (r.1, r.2.store.length)) =
      .ok (⟨0, 0, 2⟩, 0) :=
  ⟨by decide, by decide⟩

theorem newDeal_key (i : Nat) (data : DealData) :
    (newDeal i data).dedupe_key = data.dedupe_key := rfl

theorem newDeal_status (i : Nat) (data : DealData) :
    (newDeal i data).status = "new" := rfl

/-- C2: re-ingesting a valid record whose existing deal has
`status = 'archived'` performs no write at all: the engine returns with the
client — store included, hence every persisted field of the deal — completely
unchanged, and no counters advanced. -/
theorem archived_deal_upsert_is_noop
    (cl : Client) (item : Item) (topic : String) (lo now : Int)
    (k : String) (d : Deal) (evs : List String)
    (hk : k = compute_dedupe_key item.link (get_hostname item.link)
      (generate_canonical_name item item.title (get_hostname item.link)) item.title)
    (hurl : item.link ≠ "") (htitle : item.title ≠ "")
    (hev : generate_evidence_urls item item.link = .ok evs)
    (hcan : pyStrip (generate_canonical_name item item.title (get_hostname item.link)) ≠ "")
    (hone : pyStrip (generate_one_liner item item.snippet item.title) ≠ "")
    (hlk : cl.lookupFails k = false)
    (hfind : findByKey cl.store k = some d)
    (harch : d.status = "archived") :
    upsert_deals cl [item] topic lo now = .ok ({}, cl) := by
  rw [upsert_deals_single,
    processItem_archived_eval lo now topic cl {} item k d evs hk hurl htitle
      hev hcan hone hlk hfind harch]
  rfl

def c2Item : Item := { link := "https://example.com/a", title := "Foo", snippet := "hi" }

def c2Deal : Deal :=
  { id := 7
    dedupe_key := compute_dedupe_key c2Item.link (get_hostname c2Item.link)
      (generate_canonical_name c2Item c2Item.title (get_hostname c2Item.link)) c2Item.title
    status := "archived"
    evidence_urls := ["https://example.com/a"]
    seen_count := some 5
    last_seen_at := some 50 }

/-- Witness for C2: a concrete archived deal survives a re-ingestion of its
record byte-for-byte. -/
theorem archived_deal_upsert_is_noop_witness :
    upsert_deals { store := [c2Deal] } [c2Item] "ai" 0 100 =
      .ok ({}, { store := [c2Deal] }) :=
  archived_deal_upsert_is_noop { store := [c2Deal] } c2Item "ai" 0 100
    c2Deal.dedupe_key c2Deal ["https://example.com/a"] rfl
    (by decide) (by decide) (by decide) (by decide) (by decide) rfl
    (by simp [findByKey, c2Deal]) rfl

/-- C1: the claim that a `dismissed` deal with a present `dismissed_at` is
reactivated on re-ingestion whenever `now - dismissed_at ≤ 7` days fails on
the code, and this is a code bug: `now` is timezone-aware while the parsed
`dismissed_at` is made naive (`astimezone(tz=None).replace(tzinfo=None)`), so
the subtraction `now - dismissed_at_utc` raises `TypeError` for every value
of `dismissed_at`, the `except` swallows it, and the deal stays `dismissed`
with its dismissal columns untouched — whatever the elapsed time, in
particular inside the 7-day window where the specified behavior is to
transition it to `new`.  (The `> 7` days half of the claim does hold, for the
same degenerate reason.) -/
theorem upsert_never_reactivates_dismissed_with_timestamp
    (cl : Client) (item : Item) (topic : String) (lo now : Int)
    (k : String) (d : Deal) (evs : List String) (s : String)
    (hk : k = compute_dedupe_key item.link (get_hostname item.link)
      (generate_canonical_name item item.title (get_hostname item.link)) item.title)
    (hurl : item.link ≠ "") (htitle : item.title ≠ "")
    (hev : generate_evidence_urls item item.link = .ok evs)
    (hcan : pyStrip (generate_canonical_name item item.title (get_hostname item.link)) ≠ "")
    (hone : pyStrip (generate_one_liner item item.snippet item.title) ≠ "")
    (hlk : cl.lookupFails k = false)
    (hfind : findByKey cl.store k = some d)
    (hst : d.status = "dismissed")
    (hda : d.dismissed_at = some s)
    (hwr : cl.writeFails k = false) :
    ∃ cl2, upsert_deals cl [item] topic lo now = .ok (⟨1, 0, 0⟩, cl2) ∧
      ∃ d2, findByKey cl2.store k = some d2 ∧ d2.status = "dismissed" ∧
        d2.dismissed_at = some s ∧ d2.dismissed_reason = d.dismissed_reason := by
  have harch : d.status ≠ "archived" := by rw [hst]; decide
  have hrb : ruleBStatus d lo now = none :=
    ruleBStatus_dismissed_present d lo now s hst hda
  have hdk : d.dedupe_key = k := findByKey_key cl.store k d hfind
  rw [upsert_deals_single,
    processItem_existing_eval lo now topic cl {} item k d evs hk hurl htitle
      hev hcan hone hlk hfind harch hwr, hrb]
  simp only [Except.map, Option.isSome_none, if_false, Bool.false_eq_true,
    ite_false]
  refine ⟨_, rfl, ?_⟩
  refine ⟨applyData (buildData item topic now k
    (clipEvidence (mergeEvidence d.evidence_urls evs))
    (d.seen_count.getD 0 + 1) false none) d, ?_, ?_, ?_, ?_⟩
  · have hg : ∀ x : Deal,
        ((fun x => if x.dedupe_key == k then
          applyData (buildData item topic now k
            (clipEvidence (mergeEvidence d.evidence_urls evs))
            (d.seen_count.getD 0 + 1) false none) x else x) x).dedupe_key =
        x.dedupe_key := by
      intro x
      by_cases hx : (x.dedupe_key == k) = true
      · simp only [hx, if_true]
        rw [show (applyData (buildData item topic now k
            (clipEvidence (mergeEvidence d.evidence_urls evs))
            (d.seen_count.getD 0 + 1) false none) x).dedupe_key = k from rfl]
        exact (eq_of_beq hx).symm
      · simp [hx]
    have happ := findByKey_map _ hg cl.store k d hfind
    rw [happ]
    simp [hdk]
  · simp [applyData, buildData, hst]
  · simp [applyData, buildData, hda]
  · simp [applyData, buildData]

def c1Item : Item := { link := "https://example.com/b", title := "Foo", snippet := "hi" }

def c1Deal : Deal :=
  { id := 3
    dedupe_key := compute_dedupe_key c1Item.link (get_hostname c1Item.link)
      (generate_canonical_name c1Item c1Item.title (get_hostname c1Item.link)) c1Item.title
    status := "dismissed"
    dismissed_at := some "2026-10-09T00:00:00+00:00"
    dismissed_reason := some "not relevant"
    seen_count := some 2
    last_seen_at := some 1791504000 }

/-- Witness for C1 at the claim's own failing configuration: `dismissed_at`
is 2026-10-09 and `now` is 2026-10-12 — three days, well inside the 7-day
window — yet the deal stays `dismissed` with its dismissal columns intact. -/
theorem upsert_never_reactivates_dismissed_with_timestamp_witness :
    (∃ cl2, upsert_deals { store := [c1Deal] } [c1Item] "ai" 0 1791763200 =
        .ok (⟨1, 0, 0⟩, cl2) ∧
      ∃ d2, findByKey cl2.store c1Deal.dedupe_key = some d2 ∧
        d2.status = "dismissed" ∧
        d2.dismissed_at = some "2026-10-09T00:00:00+00:00" ∧
        d2.dismissed_reason = c1Deal.dismissed_reason) ∧
    pyFromIsoformat "2026-10-09T00:00:00+00:00" = .ok ⟨1791504000, true⟩ ∧
    (1791763200 - 1791504000 : Int) = 3 * 86400 :=
  ⟨upsert_never_reactivates_dismissed_with_timestamp
      { store := [c1Deal] } c1Item "ai" 0 1791763200 c1Deal.dedupe_key c1Deal
      ["https://example.com/b"] "2026-10-09T00:00:00+00:00" rfl
      (by decide) (by decide) (by decide) (by decide) (by decide) rfl
      (by simp [findByKey, c1Deal]) rfl rfl rfl,
    by decide, by decide⟩

/-- C7: upserting a sighting into an existing non-archived deal whose stored
evidence list is duplicate-free persists an evidence list that equals the
old-then-new union clipped to the newest 20 entries: it is duplicate-free,
never longer than 20, and when the union overflows exactly the 20 most
recently appended URLs survive. -/
theorem evidence_urls_bounded_nodup
    (cl : Client) (item : Item) (topic : String) (lo now : Int)
    (k : String) (d : Deal) (evs : List String)
    (hk : k = compute_dedupe_key item.link (get_hostname item.link)
      (generate_canonical_name item item.title (get_hostname item.link)) item.title)
    (hurl : item.link ≠ "") (htitle : item.title ≠ "")
    (hev : generate_evidence_urls item item.link = .ok evs)
    (hcan : pyStrip (generate_canonical_name item item.title (get_hostname item.link)) ≠ "")
    (hone : pyStrip (generate_one_liner item item.snippet item.title) ≠ "")
    (hlk : cl.lookupFails k = false)
    (hfind : findByKey cl.store k = some d)
    (harch : d.status ≠ "archived")
    (hwr : cl.writeFails k = false)
    (hnodup : d.evidence_urls.Nodup) :
    ∃ stats cl2, upsert_deals cl [item] topic lo now = .ok (stats, cl2) ∧
      ∃ d2, findByKey cl2.store k = some d2 ∧
        d2.evidence_urls = clipEvidence (mergeEvidence d.evidence_urls evs) ∧
        d2.evidence_urls.Nodup ∧
        d2.evidence_urls.length ≤ EVIDENCE_URLS_MAX ∧
        (EVIDENCE_URLS_MAX < (mergeEvidence d.evidence_urls evs).length →
          d2.evidence_urls = (mergeEvidence d.evidence_urls evs).drop
            ((mergeEvidence d.evidence_urls evs).length - EVIDENCE_URLS_MAX)) := by
  have hdk : d.dedupe_key = k := findByKey_key cl.store k d hfind
  rw [upsert_deals_single,
    processItem_existing_eval lo now topic cl {} item k d evs hk hurl htitle
      hev hcan hone hlk hfind harch hwr]
  simp only [Except.map]
  refine ⟨_, _, rfl, ?_⟩
  refine ⟨applyData (buildData item topic now k
    (clipEvidence (mergeEvidence d.evidence_urls evs))
    (d.seen_count.getD 0 + 1) false (ruleBStatus d lo now)) d, ?_, ?_, ?_, ?_, ?_⟩
  · have hg : ∀ x : Deal,
        ((fun x => if x.dedupe_key == k then
          applyData (buildData item topic now k
            (clipEvidence (mergeEvidence d.evidence_urls evs))
            (d.seen_count.getD 0 + 1) false (ruleBStatus d lo now)) x else x) x).dedupe_key =
        x.dedupe_key := by
      intro x
      by_cases hx : (x.dedupe_key == k) = true
      · simp only [hx, if_true]
        rw [show (applyData (buildData item topic now k
            (clipEvidence (mergeEvidence d.evidence_urls evs))
            (d.seen_count.getD 0 + 1) false (ruleBStatus d lo now)) x).dedupe_key = k from rfl]
        exact (eq_of_beq hx).symm
      · simp [hx]
    have happ := findByKey_map _ hg cl.store k d hfind
    rw [happ]
    simp [hdk]
  · simp [applyData, buildData]
  · rw [show (applyData (buildData item topic now k
      (clipEvidence (mergeEvidence d.evidence_urls evs))
      (d.seen_count.getD 0 + 1) false (ruleBStatus d lo now)) d).evidence_urls =
      clipEvidence (mergeEvidence d.evidence_urls evs) from rfl]
    exact clipEvidence_nodup _ (mergeEvidence_nodup evs d.evidence_urls hnodup)
  · rw [show (applyData (buildData item topic now k
      (clipEvidence (mergeEvidence d.evidence_urls evs))
      (d.seen_count.getD 0 + 1) false (ruleBStatus d lo now)) d).evidence_urls =
      clipEvidence (mergeEvidence d.evidence_urls evs) from rfl]
    exact clipEvidence_length _
  · intro hover
    rw [show (applyData (buildData item topic now k
      (clipEvidence (mergeEvidence d.evidence_urls evs))
      (d.seen_count.getD 0 + 1) false (ruleBStatus d lo now)) d).evidence_urls =
      clipEvidence (mergeEvidence d.evidence_urls evs) from rfl]
    exact clipEvidence_overflow _ hover

def c7Item : Item := { link := "https://example.com/c", title := "Foo", snippet := "hi" }

def c7Deal : Deal :=
  { id := 11
    dedupe_key := compute_dedupe_key c7Item.link (get_hostname c7Item.link)
      (generate_canonical_name c7Item c7Item.title (get_hostname c7Item.link)) c7Item.title
    status := "new"
    evidence_urls := ["e01", "e02", "e03", "e04", "e05", "e06", "e07", "e08",
      "e09", "e10", "e11", "e12", "e13", "e14", "e15", "e16", "e17", "e18",
      "e19", "e20"]
    seen_count := some 4
    last_seen_at := some 50 }

/-- Witness for C7: a deal already holding 20 evidence URLs receives one new
one; the persisted list is the 21-element union clipped to its newest 20
entries, duplicate-free. -/
theorem evidence_urls_bounded_nodup_witness :
    ∃ stats cl2, upsert_deals { store := [c7Deal] } [c7Item] "ai" 0 100 =
        .ok (stats, cl2) ∧
      ∃ d2, findByKey cl2.store c7Deal.dedupe_key = some d2 ∧
        d2.evidence_urls =
          clipEvidence (mergeEvidence c7Deal.evidence_urls ["https://example.com/c"]) ∧
        d2.evidence_urls.Nodup ∧
        d2.evidence_urls.length ≤ EVIDENCE_URLS_MAX ∧
        (EVIDENCE_URLS_MAX <
            (mergeEvidence c7Deal.evidence_urls ["https://example.com/c"]).length →
          d2.evidence_urls =
            (mergeEvidence c7Deal.evidence_urls ["https://example.com/c"]).drop
              ((mergeEvidence c7Deal.evidence_urls ["https://example.com/c"]).length -
                EVIDENCE_URLS_MAX)) :=
  evidence_urls_bounded_nodup { store := [c7Deal] } c7Item "ai" 0 100
    c7Deal.dedupe_key c7Deal ["https://example.com/c"] rfl
    (by decide) (by decide) (by decide) (by decide) (by decide) rfl
    (by simp [findByKey, c7Deal]) (by decide) rfl (by decide)

/-- C4: ingesting the same valid record twice into an empty store yields
exactly one stored deal, carrying the dedupe key both ingestions computed,
with `seen_count = 2` and the default `new` status. -/
theorem double_ingest_single_deal
    (cl : Client) (item : Item) (topic : String) (lo now : Int)
    (k : String) (evs : List String)
    (hk : k = compute_dedupe_key item.link (get_hostname item.link)
      (generate_canonical_name item item.title (get_hostname item.link)) item.title)
    (hurl : item.link ≠ "") (htitle : item.title ≠ "")
    (hev : generate_evidence_urls item item.link = .ok evs)
    (hcan : pyStrip (generate_canonical_name item item.title (get_hostname item.link)) ≠ "")
    (hone : pyStrip (generate_one_liner item item.snippet item.title) ≠ "")
    (hstore : cl.store = [])
    (hlk : cl.lookupFails k = false)
    (hwr : cl.writeFails k = false) :
    ∃ cl2 d, upsert_deals cl [item, item] topic lo now = .ok (⟨2, 0, 0⟩, cl2) ∧
      cl2.store = [d] ∧ d.dedupe_key = k ∧ d.seen_count = some 2 ∧
      d.status = "new" := by
  have hfind1 : findByKey cl.store k = none := by rw [hstore]; rfl
  have hstep1 := processItem_insert_eval lo now topic cl {} item k evs hk hurl
    htitle hev hcan hone hlk hfind1 hwr
  rw [upsert_deals_pair, hstep1]
  set nd := newDeal cl.nextId
    (buildData item topic now k (evs.take EVIDENCE_URLS_MAX) 1 true none) with hnd
  have hndk : nd.dedupe_key = k := rfl
  have hfind2 : findByKey (cl.store ++ [nd]) k = some nd := by
    rw [hstore]
    simp [findByKey, hndk]
  have harch2 : nd.status ≠ "archived" := by rw [newDeal_status]; decide
  have hrb2 : ruleBStatus nd lo now = none := by
    refine ruleBStatus_other nd lo now ?_ ?_ <;> rw [newDeal_status] <;> decide
  have hstep2 := processItem_existing_eval lo now topic
    { cl with
        store := cl.store ++ [nd]
        nextId := cl.nextId + 1 }
    { processed := 1 } item k nd evs hk hurl htitle hev hcan hone hlk hfind2
    harch2 hwr
  simp only [exc_bind_ok, Except.bind]
  rw [hstep2, hrb2]
  simp only [Except.map, Option.isSome_none, Bool.false_eq_true, if_false,
    ite_false]
  refine ⟨_, applyData (buildData item topic now k
    (clipEvidence (mergeEvidence nd.evidence_urls evs))
    (nd.seen_count.getD 0 + 1) false none) nd, rfl, ?_, ?_, ?_, ?_⟩
  · dsimp only
    rw [hstore]
    simp [hndk]
  · rfl
  · rfl
  · rfl

def c4Item : Item := { link := "https://example.com/d", title := "Foo", snippet := "hi" }

/-- Witness for C4: the concrete double ingestion of one record into an empty
store. -/
theorem double_ingest_single_deal_witness :
    ∃ cl2 d, upsert_deals {} [c4Item, c4Item] "ai" 0 100 = .ok (⟨2, 0, 0⟩, cl2) ∧
      cl2.store = [d] ∧
      d.dedupe_key = compute_dedupe_key c4Item.link (get_hostname c4Item.link)
        (generate_canonical_name c4Item c4Item.title (get_hostname c4Item.link))
        c4Item.title ∧
      d.seen_count = some 2 ∧ d.status = "new" :=
  double_ingest_single_deal {} c4Item "ai" 0 100 _ ["https://example.com/d"]
    rfl (by decide) (by decide) (by decide) (by decide) (by decide) rfl rfl rfl

/-- C5: the claim that a record whose URL normalizes to empty is skipped,
counted as an error, and leaves the rest of the batch unaffected fails on the
code: such a record (with no other URL-bearing fields) makes the non-empty
assertion inside `generate_evidence_urls` fire, and the uncaught
`AssertionError` aborts the whole batch — here a batch whose second record is
perfectly valid returns no counts at all and never processes that record. -/
theorem empty_normalized_url_not_counted_cex :
    (upsert_deals {} [{ link := " ", title := "X" },
      { link := "https://example.com/a", title := "Foo", snippet := "hi" }]
      "ai" 0 100).map (fun r => r.1) = .error () := by decide

/-- C5 (amended): a record with a truthy URL that normalizes to the empty
string and no other URL-bearing fields is rejected before the merge step, but
not by being skipped and counted: the evidence assertion raises and the whole
batch aborts with an error, whatever records follow. -/
theorem empty_normalized_url_aborts_batch
    (cl : Client) (rest : List Item) (topic : String) (lo now : Int)
    (item : Item)
    (hurl : item.link ≠ "") (htitle : item.title ≠ "")
    (hnorm : normalize_url item.link = "")
    (hs : item.sources = none) (hl : item.links = none)
    (he : item.evidence_urls = none) (hr : item.related_urls = none) :
    upsert_deals cl (item :: rest) topic lo now = .error () := by
  have hev : generate_evidence_urls item item.link = .error () := by
    unfold generate_evidence_urls
    rw [hs, hl, he, hr]
    simp [addNormalized, addUrlsVal, hurl, hnorm]
  have hpi : processItem lo now topic (cl, {}) item = .error () := by
    unfold processItem
    simp [hurl, htitle, hev, exc_bind_err]
  unfold upsert_deals
  simp [List.foldlM, hpi, exc_bind_err]

/-- Witness for C5 (amended) at a concrete whitespace-only URL. -/
theorem empty_normalized_url_aborts_batch_witness :
    upsert_deals {} [{ link := "   ", title := "Y" }] "ai" 0 0 = .error () :=
  empty_normalized_url_aborts_batch {} [] "ai" 0 0
    { link := "   ", title := "Y" }
    (by decide) (by decide) (by decide) rfl rfl rfl rfl

/-- A map that preserves every key and fixes every row carrying key `k`
leaves the lookup at `k` unchanged. -/
theorem findByKey_map_keep (G : Deal → Deal) (k : String)
    (hG1 : ∀ x, (G x).dedupe_key = x.dedupe_key)
    (hG2 : ∀ x, x.dedupe_key = k → G x = x) (store : List Deal) :
    findByKey (store.map G) k = findByKey store k := by
  induction store with
  | nil => rfl
  | cons a l ih =>
    unfold findByKey
    rw [List.map_cons]
    by_cases hc : (a.dedupe_key == k) = true
    · have ha : a.dedupe_key = k := eq_of_beq hc
      have hGa : ((G a).dedupe_key == k) = true := by rw [hG1]; exact hc
      simp only [hc, hGa, if_true]
      rw [hG2 a ha]
    · have hGa : ¬ ((G a).dedupe_key == k) = true := by rw [hG1]; exact hc
      simp only [hc, hGa, if_false]
      exact ih

/-- One engine step can never move a `dismissed` row carrying a
`dismissed_at` value out of `dismissed`: the rule-B computation raises, so
every path of `processItem` either leaves the store untouched, touches other
keys only, or rewrites the row with the status columns left out of the
payload. -/
theorem processItem_preserves_dismissed
    (lo now : Int) (topic : String) (cl : Client) (stats : Stats)
    (item : Item) (cl3 : Client) (stats3 : Stats)
    (hstep : processItem lo now topic (cl, stats) item = .ok (cl3, stats3))
    (k : String) (d : Deal) (s : String)
    (hd : findByKey cl.store k = some d)
    (hst : d.status = "dismissed")
    (hda : d.dismissed_at = some s) :
    ∃ d1, findByKey cl3.store k = some d1 ∧ d1.status = "dismissed" ∧
      d1.dismissed_at = some s := by
  unfold processItem at hstep
  dsimp only at hstep
  split at hstep
  · injection hstep with hp
    injection hp with h1 h2
    subst h1
    exact ⟨d, hd, hst, hda⟩
  · split at hstep
    · cases hstep
    · rename_i evs hge
      split at hstep
      · cases hstep
      · split at hstep
        · cases hstep
        · split at hstep
          · cases hstep
          · split at hstep
            · -- lookup failure: skipped, store untouched
              injection hstep with hp
              injection hp with h1 h2
              subst h1
              exact ⟨d, hd, hst, hda⟩
            · split at hstep
              · -- an existing row was found
                rename_i ed heq
                split at hstep
                · -- archived: untouched
                  injection hstep with hp
                  injection hp with h1 h2
                  subst h1
                  exact ⟨d, hd, hst, hda⟩
                · split at hstep
                  · -- write failure: untouched
                    injection hstep with hp
                    injection hp with h1 h2
                    subst h1
                    exact ⟨d, hd, hst, hda⟩
                  · injection hstep with hp
                    injection hp with h1 h2
                    subst h1
                    dsimp only
                    have hrow : (upsertRow cl.store cl.nextId
                        (buildData item topic now (compute_dedupe_key item.link
                          (get_hostname item.link)
                          (generate_canonical_name item item.title (get_hostname item.link))
                          item.title)
                          (clipEvidence (mergeEvidence ed.evidence_urls evs))
                          (ed.seen_count.getD 0 + 1) false (ruleBStatus ed lo now))).1 =
                        cl.store.map fun x =>
                          if x.dedupe_key == (compute_dedupe_key item.link
                            (get_hostname item.link)
                            (generate_canonical_name item item.title (get_hostname item.link))
                            item.title) then
                            applyData (buildData item topic now (compute_dedupe_key item.link
                              (get_hostname item.link)
                              (generate_canonical_name item item.title (get_hostname item.link))
                              item.title)
                              (clipEvidence (mergeEvidence ed.evidence_urls evs))
                              (ed.seen_count.getD 0 + 1) false (ruleBStatus ed lo now)) x
                          else x := by
                      unfold upsertRow
                      rw [buildData_key, heq]
                      rfl
                    rw [hrow]
                    by_cases hkk : (compute_dedupe_key item.link (get_hostname item.link)
                        (generate_canonical_name item item.title (get_hostname item.link))
                        item.title) = k
                    · rw [hkk] at heq ⊢
                      rw [heq] at hd
                      obtain rfl : ed = d := by injection hd
                      have hrb : ruleBStatus ed lo now = none :=
                        ruleBStatus_dismissed_present ed lo now s hst hda
                      rw [hrb]
                      have hg : ∀ x : Deal,
                          ((fun x => if x.dedupe_key == k then
                            applyData (buildData item topic now k
                              (clipEvidence (mergeEvidence ed.evidence_urls evs))
                              (ed.seen_count.getD 0 + 1) false none) x else x) x).dedupe_key =
                          x.dedupe_key := by
                        intro x
                        by_cases hx : (x.dedupe_key == k) = true
                        · simp only [hx, if_true]
                          rw [show (applyData (buildData item topic now k
                              (clipEvidence (mergeEvidence ed.evidence_urls evs))
                              (ed.seen_count.getD 0 + 1) false none) x).dedupe_key = k from rfl]
                          exact (eq_of_beq hx).symm
                        · simp [hx]
                      have happ := findByKey_map _ hg cl.store k ed heq
                      have hdk : ed.dedupe_key = k := findByKey_key cl.store k ed heq
                      refine ⟨_, happ, ?_, ?_⟩
                      · simp only [hdk, beq_self_eq_true, if_true]
                        simp [applyData, buildData, hst]
                      · simp only [hdk, beq_self_eq_true, if_true]
                        simp [applyData, buildData, hda]
                    · refine ⟨d, ?_, hst, hda⟩
                      rw [findByKey_map_keep _ k ?_ ?_ cl.store]
                      · exact hd
                      · intro x
                        by_cases hx : (x.dedupe_key == compute_dedupe_key item.link
                            (get_hostname item.link)
                            (generate_canonical_name item item.title (get_hostname item.link))
                            item.title) = true
                        · simp only [hx, if_true]
                          rw [show (applyData (buildData item topic now
                              (compute_dedupe_key item.link (get_hostname item.link)
                              (generate_canonical_name item item.title (get_hostname item.link))
                              item.title)
                              (clipEvidence (mergeEvidence ed.evidence_urls evs))
                              (ed.seen_count.getD 0 + 1) false (ruleBStatus ed lo now))
                              x).dedupe_key =
                              compute_dedupe_key item.link (get_hostname item.link)
                              (generate_canonical_name item item.title (get_hostname item.link))
                              item.title from rfl]
                          exact (eq_of_beq hx).symm
                        · simp [hx]
                      · intro x hxk
                        have hne : ¬ (x.dedupe_key == compute_dedupe_key item.link
                            (get_hostname item.link)
                            (generate_canonical_name item item.title (get_hostname item.link))
                            item.title) = true := by
                          rw [hxk]
                          intro hcon
                          exact hkk (eq_of_beq hcon).symm
                        simp [hne]
              · -- no existing row: a fresh insert elsewhere in the store
                rename_i heq
                split at hstep
                · injection hstep with hp
                  injection hp with h1 h2
                  subst h1
                  exact ⟨d, hd, hst, hda⟩
                · injection hstep with hp
                  injection hp with h1 h2
                  subst h1
                  refine ⟨d, ?_, hst, hda⟩
                  dsimp only
                  have hrow : (upsertRow cl.store cl.nextId
                      (buildData item topic now (compute_dedupe_key item.link
                        (get_hostname item.link)
                        (generate_canonical_name item item.title (get_hostname item.link))
                        item.title) (evs.take EVIDENCE_URLS_MAX) 1 true none)).1 =
                      cl.store ++ [newDeal cl.nextId (buildData item topic now
                        (compute_dedupe_key item.link (get_hostname item.link)
                        (generate_canonical_name item item.title (get_hostname item.link))
                        item.title) (evs.take EVIDENCE_URLS_MAX) 1 true none)] := by
                    unfold upsertRow
                    rw [buildData_key, heq]
                    rfl
                  rw [hrow]
                  exact findByKey_append cl.store _ k d hd

theorem foldlM_exc_nil {α β : Type} (f : β → α → Except Unit β) (b : β) :
    List.foldlM f b [] = pure b := rfl

theorem foldlM_exc_cons {α β : Type} (f : β → α → Except Unit β) (b : β)
    (a : α) (l : List α) :
    List.foldlM f b (a :: l) = f b a >>= fun b2 => List.foldlM f b2 l := rfl

/-- A whole batch can never move a `dismissed` row carrying a `dismissed_at`
value out of `dismissed`. -/
theorem upsertFold_preserves_dismissed
    (lo now : Int) (topic : String) (items : List Item) :
    ∀ (cl : Client) (stats : Stats) (cl3 : Client) (stats3 : Stats),
    List.foldlM (processItem lo now topic) (cl, stats) items = .ok (cl3, stats3) →
    ∀ (k : String) (d : Deal) (s : String), findByKey cl.store k = some d →
    d.status = "dismissed" → d.dismissed_at = some s →
    ∃ d1, findByKey cl3.store k = some d1 ∧ d1.status = "dismissed" ∧
      d1.dismissed_at = some s := by
  induction items with
  | nil =>
    intro cl stats cl3 stats3 hfold k d s hd hst hda
    rw [foldlM_exc_nil] at hfold
    injection hfold with hp
    injection hp with h1 h2
    subst h1
    exact ⟨d, hd, hst, hda⟩
  | cons a l ih =>
    intro cl stats cl3 stats3 hfold k d s hd hst hda
    rw [foldlM_exc_cons] at hfold
    cases hmid : processItem lo now topic (cl, stats) a with
    | error e =>
      rw [hmid, exc_bind_err] at hfold
      cases hfold
    | ok p =>
      obtain ⟨clm, sm⟩ := p
      rw [hmid, exc_bind_ok] at hfold
      obtain ⟨d1, hf1, hst1, hda1⟩ := processItem_preserves_dismissed lo now
        topic cl stats a clm sm hmid k d s hd hst hda
      exact ih clm sm cl3 stats3 hfold k d1 s hf1 hst1 hda1

/-- Model of `upsert_deals` level: the batch path preserves `dismissed` rows that
carry a `dismissed_at` value. -/
theorem upsert_deals_preserves_dismissed
    (cl : Client) (items : List Item) (topic : String) (lo now : Int)
    (stats : Stats) (cl1 : Client)
    (hup : upsert_deals cl items topic lo now = .ok (stats, cl1))
    (k : String) (d : Deal) (s : String)
    (hd : findByKey cl.store k = some d)
    (hst : d.status = "dismissed")
    (hda : d.dismissed_at = some s) :
    ∃ d1, findByKey cl1.store k = some d1 ∧ d1.status = "dismissed" ∧
      d1.dismissed_at = some s := by
  unfold upsert_deals at hup
  cases hr : List.foldlM (processItem lo now topic) (cl, {}) items with
  | error e =>
    rw [hr] at hup
    simp only [exc_bind_err] at hup
    cases hup
  | ok r =>
    obtain ⟨clm, sm⟩ := r
    rw [hr] at hup
    simp only [exc_bind_ok, exc_pure] at hup
    injection hup with hp
    injection hp with h1 h2
    obtain rfl : clm = cl1 := h2
    exact upsertFold_preserves_dismissed lo now topic items cl {} clm sm hr
      k d s hd hst hda

/-- Tracking one row through the fallback's update loop: its id and
`last_seen_at` survive, and it is either untouched or its id was among the
selected ids. -/
theorem reactivateFold_find (now2 : Int) (ids : List Nat) :
    ∀ (cl : Client) (n : Nat) (k : String) (e : Deal),
    findByKey cl.store k = some e →
    ∃ e2, findByKey (ids.foldl (reactivateStep now2) (cl, n)).1.store k = some e2 ∧
      e2.id = e.id ∧ e2.last_seen_at = e.last_seen_at ∧ (e2 = e ∨ e.id ∈ ids) := by
  induction ids with
  | nil =>
    intro cl n k e he
    exact ⟨e, he, rfl, rfl, Or.inl rfl⟩
  | cons i rest ih =>
    intro cl n k e he
    rw [List.foldl_cons]
    by_cases hf : cl.reactivateUpdateFails i = true
    · rw [show reactivateStep now2 (cl, n) i = (cl, n) from by
        unfold reactivateStep; simp [hf]]
      obtain ⟨e2, h1, h2, h3, h4⟩ := ih cl n k e he
      exact ⟨e2, h1, h2, h3, h4.imp id (List.mem_cons_of_mem i)⟩
    · rw [show reactivateStep now2 (cl, n) i =
        ({ cl with store := cl.store.map fun d =>
            if d.id == i then markReactivated now2 d else d }, n + 1) from by
        unfold reactivateStep; simp [hf]]
      have hg : ∀ x : Deal,
          ((fun d => if d.id == i then markReactivated now2 d else d) x).dedupe_key =
          x.dedupe_key := by
        intro x
        by_cases hx : (x.id == i) = true <;> simp [hx, markReactivated]
      have hfind2 := findByKey_map _ hg cl.store k e he
      by_cases hei : (e.id == i) = true
      · rw [if_pos hei] at hfind2
        obtain ⟨e2, h1, h2, h3, h4⟩ := ih
          { cl with store := cl.store.map fun d =>
              if d.id == i then markReactivated now2 d else d }
          (n + 1) k (markReactivated now2 e) hfind2
        refine ⟨e2, h1, ?_, ?_, ?_⟩
        · rw [h2]; rfl
        · rw [h3]; rfl
        · right
          rw [eq_of_beq hei]
          exact List.mem_cons_self i rest
      · rw [if_neg hei] at hfind2
        obtain ⟨e2, h1, h2, h3, h4⟩ := ih
          { cl with store := cl.store.map fun d =>
              if d.id == i then markReactivated now2 d else d }
          (n + 1) k e hfind2
        exact ⟨e2, h1, h2, h3, h4.imp id (List.mem_cons_of_mem i)⟩

/-- Tracking one row through the whole fallback pass. -/
theorem reactivate_dismissed_find
    (cl : Client) (now2 : Int) (cl2 : Client) (n : Nat)
    (hre : reactivate_dismissed_deals cl now2 = (cl2, n))
    (k : String) (e : Deal) (he : findByKey cl.store k = some e) :
    ∃ e2, findByKey cl2.store k = some e2 ∧ e2.id = e.id ∧
      e2.last_seen_at = e.last_seen_at ∧
      (e2 = e ∨ e.id ∈ (cl.store.filter (reactivateFilter now2)).map Deal.id) := by
  unfold reactivate_dismissed_deals at hre
  split at hre
  · injection hre with h1 h2
    subst h1
    exact ⟨e, he, rfl, rfl, Or.inl rfl⟩
  · obtain ⟨e2, h1, h2, h3, h4⟩ := reactivateFold_find now2
      ((cl.store.filter (reactivateFilter now2)).map Deal.id) cl 0 k e he
    rw [hre] at h1
    exact ⟨e2, h1, h2, h3, h4⟩

/-- C9 (amended): the claim that a run never auto-transitions a `dismissed`
deal to `new` unless `now - dismissed_at` is within 7 days (or `dismissed_at`
is absent) fails on the code: the batch path indeed never reactivates a row
with a present `dismissed_at` (the elapsed-time computation always raises),
but the DB-side fallback selects on `last_seen_at`, not `dismissed_at`.  The
amended guarantee that does hold: across a run — a batch followed by the
fallback pass — a deal that was `dismissed` and ends up `new` either had no
`dismissed_at`, or was selected by the fallback because its `last_seen_at`
was within 7 days of the fallback's check time, regardless of how old its
dismissal is. -/
theorem reactivation_window_amended
    (cl cl1 cl2 : Client) (items : List Item) (topic : String)
    (lo now now2 : Int) (stats : Stats) (n : Nat)
    (hup : upsert_deals cl items topic lo now = .ok (stats, cl1))
    (hre : reactivate_dismissed_deals cl1 now2 = (cl2, n))
    (hnodup : (cl1.store.map Deal.id).Nodup)
    (k : String) (d d2 : Deal)
    (hd : findByKey cl.store k = some d)
    (hst : d.status = "dismissed")
    (hd2 : findByKey cl2.store k = some d2)
    (hnew : d2.status = "new") :
    d.dismissed_at = none ∨
      ∃ d1 t, findByKey cl1.store k = some d1 ∧ d1.last_seen_at = some t ∧
        now2 - 7 * 86400 ≤ t := by
  cases hdacase : d.dismissed_at with
  | none => exact Or.inl rfl
  | some s =>
    right
    obtain ⟨d1, hf1, hst1, hda1⟩ := upsert_deals_preserves_dismissed cl items
      topic lo now stats cl1 hup k d s hd hst hdacase
    obtain ⟨e2, hf2, hid, hlast, hcase⟩ := reactivate_dismissed_find cl1 now2
      cl2 n hre k d1 hf1
    have he2d2 : e2 = d2 := by
      rw [hf2] at hd2
      injection hd2
    subst he2d2
    cases hcase with
    | inl heqd1 =>
      rw [heqd1] at hnew
      exact absurd (hst1.symm.trans hnew) (by decide)
    | inr hmem =>
      rw [List.mem_map] at hmem
      obtain ⟨x, hxfilter, hxid⟩ := hmem
      have hxmem : x ∈ cl1.store := List.mem_of_mem_filter hxfilter
      have hxpred : reactivateFilter now2 x = true := List.of_mem_filter hxfilter
      have hd1mem : d1 ∈ cl1.store := findByKey_mem cl1.store k d1 hf1
      have hxeq : x = d1 := List.inj_on_of_nodup_map hnodup hxmem hd1mem hxid
      subst hxeq
      unfold reactivateFilter at hxpred
      rw [Bool.and_eq_true] at hxpred
      obtain ⟨hxs, hxt⟩ := hxpred
      cases hlt : x.last_seen_at with
      | none =>
        rw [hlt] at hxt
        cases hxt
      | some t =>
        rw [hlt] at hxt
        exact ⟨x, t, hf1, hlt, of_decide_eq_true hxt⟩

def c9Deal : Deal :=
  { id := 21
    dedupe_key := "k9"
    status := "dismissed"
    dismissed_at := some "2026-10-02T00:00:00+00:00"
    dismissed_reason := some "stale"
    seen_count := some 3
    last_seen_at := some 1791676800 }

/-- Counterexample to C9 as stated: a deal dismissed on 2026-10-02 — ten
days before the run's `now` of 2026-10-12, far outside the 7-day window —
but seen one day ago, is automatically transitioned to `new` (with the
dismissal columns cleared) by the run's DB-side fallback pass. -/
theorem stale_dismissed_reactivated_by_fallback_cex :
    (runUpsertThenFallback { store := [c9Deal] } [] "ai" 0 1791763200
        1791763200).map
      (fun r => r.2.1.store.map fun d => (d.status, d.dismissed_at)) =
      .ok [("new", none)] ∧
    pyFromIsoformat "2026-10-02T00:00:00+00:00" = .ok ⟨1790899200, true⟩ ∧
    (1791763200 - 1790899200 : Int) = 10 * 86400 :=
  ⟨by decide, by decide, by decide⟩

/-- Witness for C9 (amended) at the counterexample's configuration: the
conclusion holds through its second disjunct — the deal's `last_seen_at` was
within 7 days of the fallback's check time. -/
theorem reactivation_window_amended_witness :
    c9Deal.dismissed_at = none ∨
      ∃ d1 t, findByKey ({ store := [c9Deal] } : Client).store "k9" = some d1 ∧
        d1.last_seen_at = some t ∧ (1791763200 : Int) - 7 * 86400 ≤ t :=
  reactivation_window_amended { store := [c9Deal] } { store := [c9Deal] }
    { store := [markReactivated 1791763200 c9Deal] } [] "ai" 0 0 1791763200
    {} 1 rfl rfl (by decide) "k9" c9Deal (markReactivated 1791763200 c9Deal)
    (by decide) rfl (by decide) rfl

end Radar

namespace Radar

/-! ## Validation of the embedding

Concrete evaluations cross-checked against the behavior of the original
Python functions under CPython 3.11. -/

theorem check_normalize_plain :
    normalize_url "https://example.com/a" = "https://example.com/a" := by decide

theorem check_normalize_blank : normalize_url " " = "" := by decide

theorem check_normalize_equivalence :
    normalize_url "https://WWW.Example.com/path/?utm_source=x&b=2&a=1#frag" =
      "https://example.com/path?a=1&b=2" := by decide

theorem check_normalize_quoting :
    normalize_url "https://h/%20?A b=c d&z=%2B" = "https://h/%20?A+b=c+d&z=%2B" := by
  decide

theorem check_clean_name_dash : clean_canonical_name "Foo — TechCrunch" = "Foo" := by
  decide

theorem check_clean_name_pipe :
    clean_canonical_name "Foo - Bar | Baz" = "Foo - Bar" := by decide

theorem check_clean_name_empty_result : clean_canonical_name " - X" = " - X" := by
  decide

theorem check_clean_name_double_colon :
    clean_canonical_name "x :: y :: z" = "x :: y" := by decide

theorem check_clean_name_colon_dash :
    clean_canonical_name "Acme: product - the best thing" = "Acme: product" := by
  decide

theorem check_sha1_abc :
    sha1Hex "abc" = "a9993e364706816aba3e25717850c26c9cd0d89d" := by decide

theorem check_hostname_blank : get_hostname " " = "" := by decide

theorem check_evidence_assert :
    generate_evidence_urls { link := " ", title := "X" } " " = .error () := by decide

theorem check_evidence_plain :
    generate_evidence_urls { link := "example.com/a", title := "X" } "example.com/a" =
      .ok ["https://example.com/a"] := by decide

theorem check_fromiso_aware :
    pyFromIsoformat "2026-10-09T00:00:00+00:00" = .ok ⟨1791504000, true⟩ := by decide

theorem check_fromiso_naive :
    pyFromIsoformat "2026-10-12T00:00:00" = .ok ⟨1791763200, false⟩ := by decide

theorem check_elapsed_raises :
    dismissedElapsed 0 1791763200 "2026-10-09T00:00:00+00:00" = .error () := by decide

theorem check_double_ingest_eval :
    (upsert_deals {} [{ link := "https://example.com/a", title := "Foo", snippet := "hi" },
        { link := "https://example.com/a", title := "Foo", snippet := "hi" }] "ai" 0 100).map
      (fun r => (r.1, r.2.store.map fun d => (d.seen_count, d.status))) =
    .ok (⟨2, 0, 0⟩, [(some 2, "new")]) := by decide

end Radar
